import Mathlib

/-!
Verification of the SCUMBot log downloader and parser
(`src/scumbot/downloader.py`) against its natural-language specification.

Shallow embedding conventions:
* A log line is represented by the data the corresponding regular
  expression extracts from it (regex matching itself is abstracted: a
  line either fails all patterns, modelled by a `noise` constructor, or
  carries the captured groups).  The 30-character minimum-length guard is
  kept explicit where the source applies it.
* Python floats that come out of the logs are modelled as `Rat`
  (the log values are short decimal literals).
* `datetime.strptime`/`strftime` round-trips are abstracted: timestamps
  are carried as the raw timestamp strings.
* `hashlib.md5(x)` is abstracted to its input string `x` (no claim
  inspects the checksum's value).
* The MySQL store is modelled as explicit state (`Db`, `Checkpoint`)
  passed through the functions that the source implements with SQL.
  `db.py` configures the downloader's connections with
  `autocommit: True`, so every executed statement is durable on its
  own; a persistence failure therefore leaves the statements executed
  before it visible (see `saveKillsUpTo`).
-/

/-- Association-list lookup (first binding wins), modelling a keyed SQL
`SELECT ... WHERE key = k`. -/
def alookup {κ α : Type} [DecidableEq κ] : List (κ × α) → κ → Option α
  | [], _ => none
  | p :: rest, k => if p.1 = k then some p.2 else alookup rest k

/-- Update the binding of `k` in place when present; no-op otherwise
(models `UPDATE ... WHERE key = k` hitting zero or one row). -/
def aupdate {κ α : Type} [DecidableEq κ] (f : α → α) : List (κ × α) → κ → List (κ × α)
  | [], _ => []
  | p :: rest, k => if p.1 = k then (p.1, f p.2) :: rest else p :: aupdate f rest k

/-- Insert-or-update, inserting at the end when absent (models
`INSERT ... ON DUPLICATE KEY UPDATE`). -/
def aupsert {κ α : Type} [DecidableEq κ] : List (κ × α) → κ → α → (α → α) → List (κ × α)
  | [], k, init, _ => [(k, init)]
  | p :: rest, k, init, f =>
      if p.1 = k then (p.1, f p.2) :: rest else p :: aupsert rest k init f

/-- Set the binding of `k`, inserting at the end when absent (models the
process-local Python dict writes `D[k] = v`). -/
def aset {κ α : Type} [DecidableEq κ] : List (κ × α) → κ → α → List (κ × α)
  | [], k, v => [(k, v)]
  | p :: rest, k, v => if p.1 = k then (k, v) :: rest else p :: aset rest k v

/-- `[raw for i, raw in enumerate(lines) if i > eff]`, written with the
running index made explicit.  Used by `parse_kill_lines_with_checkpoint`. -/
def linesAfter {α : Type} (eff : Int) : Nat → List α → List α
  | _, [] => []
  | i, l :: r => if (i : Int) > eff then l :: linesAfter eff (i + 1) r else linesAfter eff (i + 1) r

/-- The new (not yet checkpointed) lines of a file: those with index
strictly greater than the effective last-line index. -/
def newLinesAfter {α : Type} (lines : List α) (eff : Int) : List α :=
  linesAfter eff 0 lines

/-- Python `str.strip()` (whitespace from both ends), written over the
character list so that it evaluates by kernel reduction. -/
def pyStrip (s : String) : String :=
  String.mk (((s.toList.dropWhile Char.isWhitespace).reverse.dropWhile Char.isWhitespace).reverse)

/-- Python `str.lower()`. -/
def pyLower (s : String) : String :=
  String.mk (s.toList.map Char.toLower)

/-- Python `str.replace(c, r)` for a one-character pattern (the only
form the source uses: dots to dashes or colons). -/
def pyReplaceChar (c r : Char) (s : String) : String :=
  String.mk (s.toList.map (fun a => if a = c then r else a))

/-- Python slicing `s[:n]`. -/
def pyTake (n : Nat) (s : String) : String :=
  String.mk (s.toList.take n)

/-- Python `"|".join(vs)`. -/
def joinBar (xs : List String) : String :=
  String.mk (List.intercalate [Char.ofNat 124] (xs.map String.toList))

/-- The `parsed_logs` row for one `(guild_id, log_type)` key
(§ checkpoint helpers of `downloader.py`). -/
structure Checkpoint where
  lastFile : Option String
  lastLine : Int
  lastTimestamp : Option String
  lastFileSize : Option Nat
  lastChecksum : Option String
  lastMessage : Option String
deriving DecidableEq

/-- What `get_parsed_checkpoint` returns when no row exists. -/
def defaultCheckpoint : Checkpoint :=
  { lastFile := none, lastLine := -1, lastTimestamp := none,
    lastFileSize := none, lastChecksum := none, lastMessage := none }

/-- Rotation/truncation test of the kill/admin/sentry parsers:
`last_size = cp["last_file_size"] or 0; last_file != log_file or file_size < last_size`. -/
def resetKill (cp : Checkpoint) (name : String) (size : Nat) : Bool :=
  decide (cp.lastFile ≠ some name) || decide (size < cp.lastFileSize.getD 0)

/-- Effective last-line index of a kill/admin/sentry pass: `-1` after a
rotation/truncation signal, the stored index otherwise. -/
def effectiveLastLineKill (cp : Checkpoint) (name : String) (size : Nat) : Int :=
  if resetKill cp name size then -1 else cp.lastLine

/-- Rotation/truncation test of `parse_log_file` (chat/login):
`last_file != log_file or (last_size is not None and file_size < last_size)`. -/
def resetLog (cp : Checkpoint) (name : String) (size : Nat) : Bool :=
  decide (cp.lastFile ≠ some name) ||
    (match cp.lastFileSize with
     | some s => decide (size < s)
     | none => false)

/-- Effective last-line index of a chat/login pass. -/
def effectiveLastLineLog (cp : Checkpoint) (name : String) (size : Nat) : Int :=
  if resetLog cp name size then -1 else cp.lastLine

/-! ### Kill-log parser (`parse_kill_lines`, `parse_kill_lines_with_checkpoint`) -/

/-- Fields `json.loads` plus the `Killer`/`Victim`/`TimeOfDay` lookups
extract from a structured kill-detail line.  Missing keys and failed
`safe_float` conversions are `none`, exactly as the chained
`payload.get(...) or {}` / `safe_float` code yields `None`. -/
structure KillPayload where
  killerX : Option Rat
  killerY : Option Rat
  killerZ : Option Rat
  victimX : Option Rat
  victimY : Option Rat
  victimZ : Option Rat
  timeOfDay : Option String
deriving DecidableEq

/-- One line of a kill log, classified the way the source's pattern
cascade (SUICIDE_PATTERN, JSON_KILL_PATTERN, KILL_SUMMARY_PATTERN plus
the KILL_DISTANCE_PATTERN search) classifies it.  `noise` covers empty
lines, lines shorter than 30 characters and lines matching no pattern.
A `jsonDetail` with payload `none` is a matching line whose JSON body
failed to load. -/
inductive KillLine where
  | noise : KillLine
  | suicide (dt : String) (username : String) (playerId steamId : Nat)
      (x y z : Option Rat) : KillLine
  | jsonDetail (dt : String) (payload : Option KillPayload) : KillLine
  | summary (dt : String) (vName : String) (vSid : Nat) (kName : String) (kSid : Nat)
      (weapon : String) (dist : Option Rat) : KillLine
deriving DecidableEq

/-- The `summary` dict buffered per timestamp by `parse_kill_lines`. -/
structure KillSummary where
  tsStr : String
  killerSteamId : Nat
  killerUsername : String
  victimSteamId : Nat
  victimUsername : String
  weapon : String
  distance : Option Rat
deriving DecidableEq

/-- One buffered correlation block: `blocks[ts_str]`. -/
structure KillBlock where
  json : Option KillPayload
  summary : Option KillSummary
deriving DecidableEq

/-- A parsed kill event (the dict appended to `events`). -/
structure KillEvent where
  guildId : Nat
  ts : String
  killerSteamId : Nat
  killerUsername : String
  killerPlayerId : Option Nat
  victimSteamId : Nat
  victimUsername : String
  victimPlayerId : Option Nat
  weapon : String
  distance : Option Rat
  killerX : Option Rat
  killerY : Option Rat
  killerZ : Option Rat
  victimX : Option Rat
  victimY : Option Rat
  victimZ : Option Rat
  timeOfDay : Option String
  srcTag : Option String
deriving DecidableEq

/-- The event a suicide line emits immediately: killer fields equal the
victim fields, weapon is the literal `"Suicide"`, tag `"SUICIDE"`. -/
def suicideEvent (guildId : Nat) (dt username : String) (playerId steamId : Nat)
    (x y z : Option Rat) : KillEvent :=
  { guildId := guildId, ts := dt,
    killerSteamId := steamId, killerUsername := pyStrip username, killerPlayerId := some playerId,
    victimSteamId := steamId, victimUsername := pyStrip username, victimPlayerId := some playerId,
    weapon := "Suicide", distance := none,
    killerX := x, killerY := y, killerZ := z,
    victimX := x, victimY := y, victimZ := z,
    timeOfDay := none, srcTag := some "SUICIDE" }

/-- `blocks.setdefault(ts, {})` followed by a field assignment:
update the block at key `ts`, appending a fresh block when absent.
Python dicts keep insertion order, as the list does. -/
def updateBlock : List (String × KillBlock) → String → (KillBlock → KillBlock) →
    List (String × KillBlock)
  | [], ts, f => [(ts, f { json := none, summary := none })]
  | b :: r, ts, f => if b.1 = ts then (b.1, f b.2) :: r else b :: updateBlock r ts f

/-- The `summary` dict built from a matching kill-summary line: names
and weapon are stripped, steam ids converted to integers. -/
def mkKillSummary (dt vn : String) (vs : Nat) (kn : String) (ks : Nat)
    (w : String) (d : Option Rat) : KillSummary :=
  { tsStr := dt, killerSteamId := ks, killerUsername := pyStrip kn,
    victimSteamId := vs, victimUsername := pyStrip vn,
    weapon := pyStrip w, distance := d }

/-- One iteration of the scan loop of `parse_kill_lines`. -/
def killStep (guildId : Nat) (acc : List KillEvent × List (String × KillBlock))
    (l : KillLine) : List KillEvent × List (String × KillBlock) :=
  match l with
  | .noise => acc
  | .suicide dt u pid sid x y z =>
      (acc.1 ++ [suicideEvent guildId dt u pid sid x y z], acc.2)
  | .jsonDetail _ none => acc
  | .jsonDetail dt (some p) =>
      (acc.1, updateBlock acc.2 dt (fun b => { b with json := some p }))
  | .summary dt vn vs kn ks w d =>
      (acc.1, updateBlock acc.2 dt (fun b => { b with summary := some (mkKillSummary dt vn vs kn ks w d) }))

/-- The event emitted for one correlation block at the end of the batch:
nothing without a summary; otherwise the summary's fields, enriched with
positions and time-of-day from the optional JSON payload (`if tod:` is a
Python truthiness test, hence the empty-string guard). -/
def emitBlock (guildId : Nat) (ts : String) (b : KillBlock) : Option KillEvent :=
  match b.summary with
  | none => none
  | some s => some
      { guildId := guildId, ts := ts,
        killerSteamId := s.killerSteamId, killerUsername := s.killerUsername,
        killerPlayerId := none,
        victimSteamId := s.victimSteamId, victimUsername := s.victimUsername,
        victimPlayerId := none,
        weapon := s.weapon, distance := s.distance,
        killerX := (b.json.bind fun p => p.killerX),
        killerY := (b.json.bind fun p => p.killerY),
        killerZ := (b.json.bind fun p => p.killerZ),
        victimX := (b.json.bind fun p => p.victimX),
        victimY := (b.json.bind fun p => p.victimY),
        victimZ := (b.json.bind fun p => p.victimZ),
        timeOfDay := (b.json.bind fun p => p.timeOfDay).bind
          (fun t => if t = "" then none else some t),
        srcTag := none }

/-- `parse_kill_lines`: scan the batch left to right (suicides emit
immediately, summary and JSON lines are buffered per timestamp string),
then emit one event per buffered timestamp that has a summary. -/
def parse_kill_lines (lines : List KillLine) (guildId : Nat) : List KillEvent :=
  let acc := lines.foldl (killStep guildId) ([], [])
  acc.1 ++ acc.2.filterMap (fun p => emitBlock guildId p.1 p.2)

/-- A cached kill-log file: its name, its size in bytes as `stat` reports
it, and its decoded lines. -/
structure KillFile where
  name : String
  size : Nat
  lines : List KillLine
deriving DecidableEq

/-- The checkpoint signature string
`f"{killer}->{victim}:{weapon}"` of the last emitted event. -/
def killSig (e : KillEvent) : String :=
  toString e.killerSteamId ++ "->" ++ toString e.victimSteamId ++ ":" ++ e.weapon

/-- `parse_kill_lines_with_checkpoint`: read the checkpoint, reset on
rotation/truncation, return early when no line lies beyond the
checkpoint, otherwise parse the new lines and write the advanced
checkpoint.  The returned pair is (events, checkpoint row after the
pass); early returns leave the stored row untouched. -/
def parse_kill_lines_with_checkpoint (f : KillFile) (guildId : Nat) (cp : Checkpoint) :
    List KillEvent × Checkpoint :=
  let eff := effectiveLastLineKill cp f.name f.size
  if eff ≥ (f.lines.length : Int) - 1 then ([], cp)
  else
    let newLines := newLinesAfter f.lines eff
    if newLines.isEmpty then ([], cp)
    else
      let parsed := parse_kill_lines newLines guildId
      let newLastLine : Int := eff + newLines.length
      let lastSig := match parsed.getLast? with
        | some e => killSig e
        | none => ""
      let lastTs := parsed.getLast?.map (fun e => e.ts)
      (parsed,
        { lastFile := some f.name, lastLine := newLastLine, lastTimestamp := lastTs,
          lastFileSize := some f.size, lastChecksum := some lastSig,
          lastMessage := some lastSig })

/-! ### Chat/login parser (`parse_log_file`) -/

/-- The kind of log `parse_log_file` is asked to parse: it selects
CHAT_PATTERN for `"chat"` and LOGIN_PATTERN otherwise. -/
inductive LogType where
  | chat : LogType
  | login : LogType
deriving DecidableEq

/-- The combined timestamp group `YYYY.MM.DD-HH.MM.SS`, pre-split the way
the source splits it (`split("-")`, then `split(".")` of the time part). -/
structure Ts where
  date : String
  hh : String
  mm : String
  ss : String
deriving DecidableEq

/-- The non-timestamp capture groups, in the group order of the matching
pattern (chat: steam_id, username, player_id, chat_type, message;
login: ip, steam_id, username, player_id, state, x, y, z). -/
inductive LogGroups where
  | chatG (steamId username playerId chatType message : String) : LogGroups
  | loginG (ip steamId username playerId state x y z : String) : LogGroups
deriving DecidableEq

/-- One line of a chat or login log: the length of the stripped line
(for the 30-character guard) and the capture groups when some pattern
matches the line, `none` otherwise. -/
structure LogLine where
  len : Nat
  groups : Option (Ts × LogGroups)
deriving DecidableEq

/-- `pattern.search(line)` for the pass's selected pattern: a line
yields groups only for the pattern of the requested log type. -/
def matchOf (t : LogType) (l : LogLine) : Option (Ts × LogGroups) :=
  match l.groups, t with
  | some (ts, .chatG a b c d e), .chat => some (ts, .chatG a b c d e)
  | some (ts, .loginG a b c d e f g h), .login => some (ts, .loginG a b c d e f g h)
  | _, _ => none

/-- The record dict `d` after the timestamp rewrite: the pattern groups
minus `datetime`, plus `date` (dots turned into dashes) and `time`
(hour and minute of the line, seconds replaced by `"00"`). -/
structure LogEntry where
  g : LogGroups
  date : String
  time : String
deriving DecidableEq

/-- Build the record for one matched line. -/
def mkLogEntry (ts : Ts) (g : LogGroups) : LogEntry :=
  { g := g, date := pyReplaceChar (Char.ofNat 46) (Char.ofNat 45) ts.date, time := ts.hh ++ ":" ++ ts.mm ++ ":00" }

/-- The dict values of a record in insertion order, as
`"|".join(str(v) for v in d.values())` serializes them. -/
def entryValues : LogEntry → List String
  | ⟨.chatG sid u pid ct msg, d, t⟩ => [sid, u, pid, ct, msg, d, t]
  | ⟨.loginG ip sid u pid st x y z, d, t⟩ => [ip, sid, u, pid, st, x, y, z, d, t]

/-- The per-pass duplicate-detection signature of a record. -/
def lineKey (e : LogEntry) : String :=
  joinBar (entryValues e)

/-- `d.get("message", d.get("state", ""))`: the checkpoint message field
is the chat message for chat records and the login state for login
records. -/
def msgOf (e : LogEntry) : String :=
  match e.g with
  | .chatG _ _ _ _ msg => msg
  | .loginG _ _ _ _ st _ _ _ => st

/-- `d.get("steam_id", "")`, present in both record kinds. -/
def steamIdOf (e : LogEntry) : String :=
  match e.g with
  | .chatG sid _ _ _ _ => sid
  | .loginG _ sid _ _ _ _ _ _ => sid

/-- The scan loop of `parse_log_file` with its running index, the
per-pass `seen_lines` set and `last_processed_index` made explicit:
skip checkpointed lines, skip short lines, skip non-matching lines,
skip within-pass duplicates; otherwise emit the record and move
`last_processed_index` to this line. -/
def logScan (t : LogType) (eff : Int) : Nat → List String → Int → List LogLine →
    List LogEntry × Int
  | _, _, lpi, [] => ([], lpi)
  | i, seen, lpi, l :: r =>
      if (i : Int) ≤ eff then logScan t eff (i + 1) seen lpi r
      else if l.len < 30 then logScan t eff (i + 1) seen lpi r
      else
        match matchOf t l with
        | none => logScan t eff (i + 1) seen lpi r
        | some (ts, g) =>
            let e := mkLogEntry ts g
            if lineKey e ∈ seen then logScan t eff (i + 1) seen lpi r
            else
              let rest := logScan t eff (i + 1) (seen ++ [lineKey e]) (i : Int) r
              (e :: rest.1, rest.2)

/-- A cached chat or login log file. -/
structure LogFile where
  name : String
  size : Nat
  lines : List LogLine
deriving DecidableEq

/-- `parse_log_file`: reset on rotation/truncation, scan the new lines,
and write the checkpoint only when `last_processed_index` moved past the
effective last-line index — i.e. only when some new line matched the
pattern and survived deduplication.  Returns (entries, checkpoint row
after the pass). -/
def parse_log_file (f : LogFile) (guildId : Nat) (t : LogType) (cp : Checkpoint) :
    List LogEntry × Checkpoint :=
  let _ := guildId
  let eff := effectiveLastLineLog cp f.name f.size
  let scanned := logScan t eff 0 [] eff f.lines
  let entries := scanned.1
  let lpi := scanned.2
  if lpi > eff then
    let lastMsg := match entries.getLast? with
      | some e => msgOf e
      | none => ""
    let lastTsStr := entries.getLast?.map (fun e => e.date ++ " " ++ e.time)
    let checksumSrc :=
      (match entries.getLast? with
       | some e => steamIdOf e
       | none => "") ++ "|" ++ lastMsg
    (entries,
      { lastFile := some f.name, lastLine := lpi, lastTimestamp := lastTsStr,
        lastFileSize := some f.size, lastChecksum := some checksumSrc,
        lastMessage := some lastMsg })
  else (entries, cp)

/-! ### Admin parser (`parse_admin_lines`, `parse_admin_file`) -/

/-- One line of an admin log: either unmatched by ADMIN_PATTERN or its
capture groups (date, time, steam_id, username, player_id, command)
together with the raw line. -/
inductive AdminLine where
  | noise : AdminLine
  | entry (date timeS steamId username : String) (playerId : Nat)
      (command raw : String) : AdminLine
deriving DecidableEq

/-- The record `parse_admin_lines` builds for one matching line. -/
structure AdminEntry where
  guildId : Nat
  ts : String
  steamId : String
  username : String
  playerId : Nat
  command : String
  raw : String
deriving DecidableEq

/-- `parse_admin_lines`: keep the matching lines, rebuilding the
timestamp as `date.replace(".", "-") + " " + time.replace(".", ":")`. -/
def parse_admin_lines (lines : List AdminLine) (guildId : Nat) : List AdminEntry :=
  lines.filterMap (fun l =>
    match l with
    | .noise => none
    | .entry date timeS sid u pid cmd raw => some
        { guildId := guildId, ts := pyReplaceChar (Char.ofNat 46) (Char.ofNat 45) date ++ " " ++ pyReplaceChar (Char.ofNat 46) (Char.ofNat 58) timeS,
          steamId := sid, username := u, playerId := pid, command := cmd, raw := raw })

/-- The collection loop of `parse_admin_file`: every line with index
beyond the checkpoint is appended to `new_lines` and moves
`last_processed_index`, matching or not. -/
def scanCollect {α : Type} (eff : Int) : Nat → Int → List α → List α × Int
  | _, lpi, [] => ([], lpi)
  | i, lpi, l :: r =>
      if (i : Int) ≤ eff then scanCollect eff (i + 1) lpi r
      else
        let rest := scanCollect eff (i + 1) (i : Int) r
        (l :: rest.1, rest.2)

/-- A cached admin log file. -/
structure AdminFile where
  name : String
  size : Nat
  lines : List AdminLine
deriving DecidableEq

/-- `parse_admin_file`: collect the new lines, parse them, and write
the advanced checkpoint whenever at least one line was scanned. -/
def parse_admin_file (f : AdminFile) (guildId : Nat) (cp : Checkpoint) :
    List AdminEntry × Checkpoint :=
  let eff := effectiveLastLineKill cp f.name f.size
  let scanned := scanCollect eff 0 eff f.lines
  let entries := parse_admin_lines scanned.1 guildId
  let lpi := scanned.2
  let lastTs := entries.getLast?.map (fun e => e.ts)
  let lastMsg := match entries.getLast? with
    | some e => e.command
    | none => ""
  let checksumSrc := match entries.getLast? with
    | some e => e.steamId ++ "|" ++ e.command
    | none => ""
  if lpi > eff then
    (entries,
      { lastFile := some f.name, lastLine := lpi, lastTimestamp := lastTs,
        lastFileSize := some f.size, lastChecksum := some checksumSrc,
        lastMessage := some lastMsg })
  else (entries, cp)

/-! ### Sentry parser (`parse_sentry_file`) -/

/-- One line of a sentry log: either a line that is empty after
stripping or fails SENTRY_DESTROY_RE, or the captured groups together
with the raw line (newline already removed). -/
inductive SentryLine where
  | noise : SentryLine
  | entry (ts killer : String) (steam : Nat) (weapon : String)
      (damage x y z : Rat) (rawLine : String) : SentryLine
deriving DecidableEq

/-- The record `parse_sentry_file` appends for one matching line. -/
structure SentryEntry where
  guildId : Nat
  ts : String
  killerSteamId : Nat
  killerUsername : String
  weapon : String
  damage : Rat
  x : Rat
  y : Rat
  z : Rat
  rawLine : String
deriving DecidableEq

/-- The scan loop of `parse_sentry_file`: `last_processed_index` moves
on every scanned line, matched or not; matching lines append a record
with killer name and weapon stripped. -/
def sentryScan (guildId : Nat) (eff : Int) : Nat → Int → List SentryLine →
    List SentryEntry × Int
  | _, lpi, [] => ([], lpi)
  | i, lpi, l :: r =>
      if (i : Int) ≤ eff then sentryScan guildId eff (i + 1) lpi r
      else
        match l with
        | .noise => sentryScan guildId eff (i + 1) (i : Int) r
        | .entry ts killer steam weapon dmg x y z raw =>
            let rest := sentryScan guildId eff (i + 1) (i : Int) r
            ({ guildId := guildId, ts := ts, killerSteamId := steam,
               killerUsername := pyStrip killer, weapon := pyStrip weapon,
               damage := dmg, x := x, y := y, z := z, rawLine := raw } :: rest.1,
             rest.2)

/-- A cached sentry log file. -/
structure SentryFile where
  name : String
  size : Nat
  lines : List SentryLine
deriving DecidableEq

/-- `parse_sentry_file`: scan the new lines and write the advanced
checkpoint whenever at least one line was scanned; the checkpoint
message is the last matched raw line, or the sentinel
`"advanced_no_match"` when lines were scanned but none matched.
Returns ((matched entries, scanned line count), checkpoint row). -/
def parse_sentry_file (f : SentryFile) (guildId : Nat) (cp : Checkpoint) :
    (List SentryEntry × Int) × Checkpoint :=
  let eff := effectiveLastLineKill cp f.name f.size
  let scanned := sentryScan guildId eff 0 eff f.lines
  let matched := scanned.1
  let lpi := scanned.2
  let cp2 :=
    if lpi > eff then
      let lastTs := matched.getLast?.map (fun e => e.ts)
      let lastMsg := match matched.getLast? with
        | some e => pyStrip e.rawLine
        | none => "advanced_no_match"
      { lastFile := some f.name, lastLine := lpi, lastTimestamp := lastTs,
        lastFileSize := some f.size, lastChecksum := some lastMsg,
        lastMessage := some (pyTake 512 lastMsg) }
    else cp
  let scannedCount : Int := if lpi > eff then lpi - eff else 0
  ((matched, scannedCount), cp2)

/-! ### Relational store model and the persister/aggregator
(`save_kills_and_update_stats`, `save_sentry_logs_to_mysql`) -/

/-- One `player_statistics` row.  New rows created by the bare
`INSERT INTO player_statistics (guild_id, steam_id, username)` take the
zero defaults (the schema used by `handle_registration_in_chat` inserts
kills 0, deaths 0, longest_kill 0, favorite_weapon NULL, kd_ratio 0). -/
structure PlayerStats where
  username : Option String
  kills : Nat
  deaths : Nat
  longestKill : Rat
  favoriteWeapon : Option String
  kd : Rat
  sentryKills : Nat
deriving DecidableEq

/-- A fresh zero-initialized player row with the given username. -/
def newPlayer (username : Option String) : PlayerStats :=
  { username := username, kills := 0, deaths := 0, longestKill := 0,
    favoriteWeapon := none, kd := 0, sentryKills := 0 }

/-- One `weapon_stats` row. -/
structure WeaponStats where
  kills : Nat
  longestKill : Rat
  totalDistance : Rat
  firstKillTs : String
  lastKillTs : String
deriving DecidableEq

/-- One `sentry_logs` row, as `save_sentry_logs_to_mysql` inserts it. -/
structure SentryRow where
  guildId : Nat
  ts : String
  killerSteamId : Nat
  killerUsername : String
  weapon : String
  damage : Rat
  x : Rat
  y : Rat
  z : Rat
  rawLine : String
deriving DecidableEq

/-- The slice of the MySQL store the downloader's save functions touch:
player aggregates keyed by (guild_id, steam_id), weapon aggregates keyed
by (guild_id, steam_id, weapon), and the two fact tables the claims
mention. -/
structure Db where
  players : List ((Nat × Nat) × PlayerStats)
  weapons : List ((Nat × Nat × String) × WeaponStats)
  killLogs : List (Nat × KillEvent)
  sentryLogs : List SentryRow
deriving DecidableEq

/-- `(e.get(...) or "").strip() or None`: the stripped username, or
`None` when it strips to nothing. -/
def optName (s : String) : Option String :=
  if pyStrip s = "" then none else some (pyStrip s)

/-- `player_upsert_sql`: ensure the row exists, updating only the
username on duplicate key. -/
def playerUpsert (db : Db) (g sid : Nat) (name : Option String) : Db :=
  let ps := aupsert db.players (g, sid) (newPlayer name) (fun P => { P with username := name })
  { db with players := ps }

/-- `inc_deaths_sql`. -/
def incDeaths (db : Db) (g sid : Nat) : Db :=
  { db with players := aupdate (fun P => { P with deaths := P.deaths + 1 }) db.players (g, sid) }

/-- `inc_kills_sql`: `kills = kills + 1, longest_kill = GREATEST(longest_kill, dist)`. -/
def incKills (db : Db) (g sid : Nat) (dist : Rat) : Db :=
  let ps := aupdate (fun P => { P with kills := P.kills + 1, longestKill := max P.longestKill dist }) db.players (g, sid)
  { db with players := ps }

/-- `kd_sql`: `kd_ratio = CASE WHEN deaths = 0 THEN kills ELSE kills / deaths END`. -/
def recomputeKd (P : PlayerStats) : PlayerStats :=
  { P with kd := if P.deaths = 0 then (P.kills : Rat) else (P.kills : Rat) / (P.deaths : Rat) }

def updateKd (db : Db) (g sid : Nat) : Db :=
  { db with players := aupdate recomputeKd db.players (g, sid) }

/-- `weapon_upsert_sql`: fresh row (1 kill, the distance everywhere,
both timestamps this event's), or on duplicate key kills + 1,
longest = GREATEST, total_distance accumulated, last_kill_ts renewed. -/
def freshWeaponRow (dist : Rat) (ts : String) : WeaponStats :=
  { kills := 1, longestKill := dist, totalDistance := dist, firstKillTs := ts, lastKillTs := ts }

/-- The `ON DUPLICATE KEY UPDATE` branch of `weapon_upsert_sql`. -/
def bumpWeaponRow (dist : Rat) (ts : String) (w : WeaponStats) : WeaponStats :=
  { w with kills := w.kills + 1, longestKill := max w.longestKill dist, totalDistance := w.totalDistance + dist, lastKillTs := ts }

def weaponUpsert (db : Db) (g sid : Nat) (weapon : String) (dist : Rat) (ts : String) : Db :=
  let ws := aupsert db.weapons (g, sid, weapon) (freshWeaponRow dist ts) (bumpWeaponRow dist ts)
  { db with weapons := ws }

/-- The comparison of `ORDER BY kills DESC, longest_kill DESC,
last_kill_ts DESC`: does row `a` sort strictly before row `b`?
(Timestamps are `YYYY.MM.DD-HH.MM.SS` strings, whose lexicographic
order is chronological.) -/
def weaponBefore (a b : WeaponStats) : Bool :=
  decide (b.kills < a.kills) ||
    (decide (a.kills = b.kills) &&
      (decide (b.longestKill < a.longestKill) ||
        (decide (a.longestKill = b.longestKill) && decide (b.lastKillTs < a.lastKillTs))))

/-- `... LIMIT 1` over the killer's weapon rows: the weapon of the
best-sorting row, scanning in table order and replacing the candidate
only on a strictly better row (MySQL leaves the order of exact ties
unspecified; the scan is one deterministic choice). -/
def favWeaponOf (db : Db) (g sid : Nat) : Option String :=
  let rows := db.weapons.filter (fun p => decide (p.1.1 = g) && decide (p.1.2.1 = sid))
  (rows.foldl (fun best p =>
      match best with
      | none => some p
      | some q => if weaponBefore p.2 q.2 then some p else some q) none).map
    (fun p => p.1.2.2)

/-- `fav_weapon_sql`: set `favorite_weapon` from the best weapon row;
the `UPDATE ... JOIN (...) ` touches no row when the killer has no
weapon rows. -/
def updFav (db : Db) (g sid : Nat) : Db :=
  match favWeaponOf db g sid with
  | none => db
  | some w =>
      let ps := aupdate (fun P => { P with favoriteWeapon := some w }) db.players (g, sid)
      { db with players := ps }

/-- The single `executemany` that inserts all `kill_logs` rows of the
batch (with `bounty_reward` fixed to 0, not modelled further). -/
def insertKillRows (db : Db) (g : Nat) (events : List KillEvent) : Db :=
  { db with killLogs := db.killLogs ++ events.map (fun e => (g, e)) }

/-- The per-event body of the stats loop of `save_kills_and_update_stats`:
victim row ensured, deaths incremented, kd recomputed; suicides stop
there; otherwise killer row ensured, kills/longest incremented, weapon
row upserted, favorite weapon and kd recomputed.  `if victim_sid:` and
`if killer_sid:` are Python truthiness tests on the integer id. -/
def saveKillEventStats (g : Nat) (db : Db) (e : KillEvent) : Db :=
  let distVal : Rat := e.distance.getD 0
  let db1 :=
    if e.victimSteamId ≠ 0 then
      updateKd (incDeaths (playerUpsert db g e.victimSteamId (optName e.victimUsername))
        g e.victimSteamId) g e.victimSteamId
    else db
  if e.srcTag = some "SUICIDE" then db1
  else if e.killerSteamId ≠ 0 then
    let db2 := incKills (playerUpsert db1 g e.killerSteamId (optName e.killerUsername))
      g e.killerSteamId distVal
    let weapon := if pyStrip e.weapon = "" then "Unknown" else pyStrip e.weapon
    let db3 := weaponUpsert db2 g e.killerSteamId weapon distVal e.ts
    updateKd (updFav db3 g e.killerSteamId) g e.killerSteamId
  else db1

/-- `save_kills_and_update_stats`: insert all kill rows, then run the
stats loop over every event of the batch. -/
def save_kills_and_update_stats (events : List KillEvent) (g : Nat) (db : Db) : Db :=
  if events.isEmpty then db
  else events.foldl (saveKillEventStats g) (insertKillRows db g events)

/-- The store as it is visible when the stats loop raises on event
index `k` (0-based): the kill-row insert already ran, as did the stats
of the first `k` events.  `db.py` opens the connection with
`autocommit: True`, so each of those statements is already durable and
the `conn.close()` on the failure path rolls nothing back. -/
def saveKillsUpTo (events : List KillEvent) (g : Nat) (db : Db) (k : Nat) : Db :=
  if events.isEmpty then db
  else (events.take k).foldl (saveKillEventStats g) (insertKillRows db g events)

/-- The `sentry_logs` row built for one entry (the steam id is already
an integer in the entry). -/
def sentryRowOf (guildId : Nat) (e : SentryEntry) : SentryRow :=
  { guildId := guildId, ts := e.ts, killerSteamId := e.killerSteamId,
    killerUsername := e.killerUsername, weapon := e.weapon, damage := e.damage,
    x := e.x, y := e.y, z := e.z, rawLine := e.rawLine }

/-- The `counts` dict of `save_sentry_logs_to_mysql`:
`counts[sid] = counts.get(sid, 0) + 1`, skipping falsy steam ids. -/
def bumpCount : List (Nat × Nat) → Nat → List (Nat × Nat)
  | [], s => [(s, 1)]
  | p :: r, s => if p.1 = s then (p.1, p.2 + 1) :: r else p :: bumpCount r s

/-- Build the per-attacker event counts of a batch. -/
def sentryCounts (entries : List SentryEntry) : List (Nat × Nat) :=
  entries.foldl (fun cs e => if e.killerSteamId = 0 then cs else bumpCount cs e.killerSteamId) []

/-- One `UPDATE player_statistics SET sentry_kills = COALESCE(...) + cnt`
statement: a no-op when the attacker has no player row. -/
def addSentryKills (guildId : Nat) (db : Db) (p : Nat × Nat) : Db :=
  let ps := aupdate (fun P => { P with sentryKills := P.sentryKills + p.2 }) db.players (guildId, p.1)
  { db with players := ps }

/-- `save_sentry_logs_to_mysql`: insert the fact rows, then — only when
`increment_stats` is set — bump each attacker's `sentry_kills` by their
event count.  (The `INSERT IGNORE` duplicate suppression rests on a
unique key of the external schema and is modelled as a plain insert;
no claim depends on it.) -/
def save_sentry_logs_to_mysql (db : Db) (entries : List SentryEntry) (guildId : Nat)
    (incrementStats : Bool) : Db :=
  if entries.isEmpty then db
  else
    let db1 := { db with sentryLogs := db.sentryLogs ++ entries.map (sentryRowOf guildId) }
    if incrementStats then (sentryCounts entries).foldl (addSentryKills guildId) db1
    else db1

/-- `int(guild.get("post_sentries", 0) or 0) == 1`: the sentry-feature
flag, read once per pass by each downloader before it saves the batch. -/
def increment_stats_of (postSentries : Option Nat) : Bool :=
  decide (postSentries.getD 0 = 1)

/-! ### The kill-file pipeline, with and without a persistence failure -/

/-- The kill branch of the downloaders: parse with checkpoint (which
commits the advanced checkpoint through its own connection), then save
the events.  Returns (store, checkpoint row) after the pass. -/
def processKillFile (f : KillFile) (g : Nat) (cp : Checkpoint) (db : Db) : Db × Checkpoint :=
  let parsed := parse_kill_lines_with_checkpoint f g cp
  (save_kills_and_update_stats parsed.1 g db, parsed.2)

/-- The same pass when the stats loop of `save_kills_and_update_stats`
raises at event index `failAt`: the exception is logged by the caller
and the connection closed, but the checkpoint was already written during
the parse step and the statements executed before the failure are
already committed (`autocommit: True`). -/
def processKillFileWithFailure (f : KillFile) (g : Nat) (cp : Checkpoint) (db : Db)
    (failAt : Nat) : Db × Checkpoint :=
  let parsed := parse_kill_lines_with_checkpoint f g cp
  (saveKillsUpTo parsed.1 g db failAt, parsed.2)

/-! ### Transport selector (`_choose_transport`, `_aioftp_known_incompatible`,
and the transport logic of `process_guild`) -/

/-- The three transfer mechanisms remembered in `TRANSPORT_PREF`. -/
inductive Transport where
  | sftp : Transport
  | aioftp : Transport
  | safe_ftp : Transport
deriving DecidableEq

/-- The base transport families `_choose_transport` can return. -/
inductive BaseTransport where
  | sftp : BaseTransport
  | ftp : BaseTransport
deriving DecidableEq

/-- Python `sub in s` substring containment. -/
def strContains (s sub : String) : Bool :=
  decide (List.IsInfix sub.toList s.toList)

/-- `_choose_transport`: port 22 or an `"sftp"` hint in the host mean
SFTP, anything else the FTP family. -/
def choose_transport (host : String) (port : Nat) : BaseTransport :=
  if strContains host "sftp" then .sftp
  else if port = 22 then .sftp
  else .ftp

/-- The substring facts about `str(exc)` that
`_aioftp_known_incompatible` tests (the literal EPSV/PASV mismatch
messages are abstracted to these three containment flags). -/
structure ErrText where
  hasWait229Got227 : Bool
  hasWait229 : Bool
  has227 : Bool
deriving DecidableEq

/-- `_aioftp_known_incompatible`: first message present, or — Python
`or`/`and` precedence — both the generic 229-wait text and a 227 reply
present. -/
def aioftp_known_incompatible (e : ErrText) : Bool :=
  e.hasWait229Got227 || (e.hasWait229 && e.has227)

/-- `AIOFTP_BACKOFF_SECONDS = 24 * 60 * 60`. -/
def AIOFTP_BACKOFF_SECONDS : Nat := 24 * 60 * 60

/-- The per-pass file counters `process_guild` reports. -/
structure ScanStats where
  files : Nat
  chat : Nat
  login : Nat
  kill : Nat
  admin : Nat
  sentry : Nat
deriving DecidableEq

/-- Outcome of one download attempt: the stats on success, the raised
error's text on failure. -/
inductive FtpResult where
  | ok (stats : ScanStats) : FtpResult
  | err (e : ErrText) : FtpResult
deriving DecidableEq

/-- The two process-local maps `TRANSPORT_PREF` and
`AIOFTP_BACKOFF_UNTIL`, keyed by guild id. -/
structure TransportState where
  pref : List (Nat × Transport)
  backoffUntil : List (Nat × Nat)
deriving DecidableEq

/-- The connection settings of one guild row that the transport logic
reads. -/
structure GuildCfg where
  guildId : Nat
  host : String
  port : Nat
deriving DecidableEq

/-- The transport-selection and fallback logic of `process_guild`, with
the download attempts abstracted to their outcomes, `time.time()` to
`now`, and the outer `except` (log and return) to a `none` result.
Mirrors `downloader.py` lines 1467-1536: backoff forces `safe_ftp`;
SFTP errors are only logged; in FTP mode a remembered `safe_ftp`
preference goes straight to the safe client, otherwise the aioftp
attempt runs first and on any error — setting the 24-hour backoff when
the error matches the known incompatibility — the same tick falls back
to the safe client and remembers `safe_ftp` on its success. -/
def process_guild_transport (st : TransportState) (g : GuildCfg) (now : Nat)
    (sftpRes aioftpRes safeRes : FtpResult) : TransportState × Option ScanStats :=
  let host := pyLower (pyStrip g.host)
  let preferred0 := alookup st.pref g.guildId
  let base := choose_transport host g.port
  let inBackoff := decide ((alookup st.backoffUntil g.guildId).getD 0 > now)
  let st1 :=
    if inBackoff && decide (preferred0 ≠ some Transport.safe_ftp) then
      { st with pref := aset st.pref g.guildId Transport.safe_ftp }
    else st
  let preferred := if inBackoff then some Transport.safe_ftp else preferred0
  let isSftp :=
    match preferred with
    | some t => decide (t = Transport.sftp)
    | none => decide (base = BaseTransport.sftp)
  if isSftp then
    match sftpRes with
    | .ok s => ({ st1 with pref := aset st1.pref g.guildId Transport.sftp }, some s)
    | .err _ => (st1, none)
  else
    if alookup st1.pref g.guildId = some Transport.safe_ftp then
      match safeRes with
      | .ok s => (st1, some s)
      | .err _ => (st1, none)
    else
      match aioftpRes with
      | .ok s => ({ st1 with pref := aset st1.pref g.guildId Transport.aioftp }, some s)
      | .err e =>
          let st2 :=
            if aioftp_known_incompatible e then
              { st1 with backoffUntil := aset st1.backoffUntil g.guildId (now + AIOFTP_BACKOFF_SECONDS) }
            else st1
          match safeRes with
          | .ok s => ({ st2 with pref := aset st2.pref g.guildId Transport.safe_ftp }, some s)
          | .err _ => (st2, none)

/-! ### Statement-side helpers (predicates, projections, counts) -/

/-- The suicide event a line contributes, if any. -/
def suicideOf (guildId : Nat) : KillLine → Option KillEvent
  | .suicide dt u pid sid x y z => some (suicideEvent guildId dt u pid sid x y z)
  | _ => none

/-- Is this line a kill-summary line with the given timestamp string? -/
def isSummaryAt (ts : String) : KillLine → Bool
  | .summary dt _ _ _ _ _ _ => decide (dt = ts)
  | _ => false

/-- Is this line a JSON detail line with the given timestamp string
whose payload loaded successfully? -/
def isJsonAt (ts : String) : KillLine → Bool
  | .jsonDetail dt (some _) => decide (dt = ts)
  | _ => false

/-- Is this line a suicide line with the given timestamp string? -/
def isSuicideAt (ts : String) : KillLine → Bool
  | .suicide dt _ _ _ _ _ _ => decide (dt = ts)
  | _ => false

/-- The summary buffered for `ts` at the end of a batch: the latest
summary line with that timestamp wins (later lines overwrite). -/
def lastSumAt (ts : String) : List KillLine → Option KillSummary
  | [] => none
  | l :: r =>
      (lastSumAt ts r).orElse (fun _ =>
        match l with
        | .summary dt vn vs kn ks w d =>
            if dt = ts then some (mkKillSummary dt vn vs kn ks w d) else none
        | _ => none)

/-- The payload buffered for `ts` at the end of a batch. -/
def lastJsonAt (ts : String) : List KillLine → Option KillPayload
  | [] => none
  | l :: r =>
      (lastJsonAt ts r).orElse (fun _ =>
        match l with
        | .jsonDetail dt (some p) => if dt = ts then some p else none
        | _ => none)

/-- Does some line of the batch create the correlation block for `ts`? -/
def touchesAt (ts : String) (lines : List KillLine) : Bool :=
  lines.any (fun l => isSummaryAt ts l || isJsonAt ts l)

/-- Keys of a correlation buffer. -/
def keysOf (m : List (String × KillBlock)) : List String := m.map Prod.fst

/-- How many sentry events of a batch name this attacker. -/
def sentryCountFor (entries : List SentryEntry) (sid : Nat) : Nat :=
  (entries.filter (fun e => decide (e.killerSteamId = sid))).length

/-- Keys of an association list over `Nat`. -/
def keysN (cs : List (Nat × Nat)) : List Nat := cs.map Prod.fst

/-- The correlation block for `ts` at the end of a scan that started
from buffer state `b0`: untouched buffers keep `b0`, touched ones hold
the latest summary and payload seen for `ts`, falling back to `b0`'s
fields. -/
def blockRes (ts : String) (lines : List KillLine) (b0 : Option KillBlock) : Option KillBlock :=
  if touchesAt ts lines then
    some { json := (lastJsonAt ts lines).orElse (fun _ => b0.bind KillBlock.json),
           summary := (lastSumAt ts lines).orElse (fun _ => b0.bind KillBlock.summary) }
  else b0

/-! ### Helper lemmas about the store and scan-loop primitives -/

theorem alookup_aset_self {κ α : Type} [DecidableEq κ] (m : List (κ × α)) (k : κ) (v : α) :
    alookup (aset m k v) k = some v := by
  induction m with
  | nil => simp [aset, alookup]
  | cons p rest ih =>
      by_cases h : p.1 = k
      · simp [aset, h, alookup]
      · simp [aset, h, alookup, ih]

theorem alookup_aset_ne {κ α : Type} [DecidableEq κ] (m : List (κ × α)) (k q : κ) (v : α)
    (h : q ≠ k) : alookup (aset m k v) q = alookup m q := by
  induction m with
  | nil => simp [aset, alookup, Ne.symm h]
  | cons p rest ih =>
      by_cases hp : p.1 = k
      · simp [aset, hp, alookup, Ne.symm h]
      · simp [aset, hp, alookup, ih]

theorem alookup_aupdate_self {κ α : Type} [DecidableEq κ] (f : α → α) (m : List (κ × α)) (k : κ) :
    alookup (aupdate f m k) k = (alookup m k).map f := by
  induction m with
  | nil => simp [aupdate, alookup]
  | cons p rest ih =>
      by_cases h : p.1 = k
      · simp [aupdate, h, alookup]
      · simp [aupdate, h, alookup, ih]

theorem alookup_aupdate_ne {κ α : Type} [DecidableEq κ] (f : α → α) (m : List (κ × α)) (k q : κ)
    (h : q ≠ k) : alookup (aupdate f m k) q = alookup m q := by
  induction m with
  | nil => simp [aupdate, alookup]
  | cons p rest ih =>
      by_cases hp : p.1 = k
      · simp [aupdate, hp, alookup, Ne.symm h]
      · simp [aupdate, hp, alookup, ih]

theorem alookup_aupsert_self {κ α : Type} [DecidableEq κ] (m : List (κ × α)) (k : κ)
    (init : α) (f : α → α) :
    alookup (aupsert m k init f) k =
      some (match alookup m k with
            | some v => f v
            | none => init) := by
  induction m with
  | nil => simp [aupsert, alookup]
  | cons p rest ih =>
      by_cases h : p.1 = k
      · simp [aupsert, h, alookup]
      · simp [aupsert, h, alookup, ih]

theorem alookup_aupsert_ne {κ α : Type} [DecidableEq κ] (m : List (κ × α)) (k q : κ)
    (init : α) (f : α → α) (h : q ≠ k) :
    alookup (aupsert m k init f) q = alookup m q := by
  induction m with
  | nil => simp [aupsert, alookup, Ne.symm h]
  | cons p rest ih =>
      by_cases hp : p.1 = k
      · simp [aupsert, hp, alookup, Ne.symm h]
      · simp [aupsert, hp, alookup, ih]

theorem linesAfter_eq_drop {α : Type} (eff : Int) :
    ∀ (l : List α) (i : Nat), linesAfter eff i l = l.drop (eff + 1 - i).toNat
  | [], i => by simp [linesAfter]
  | x :: r, i => by
      by_cases h : (i : Int) > eff
      · have h0 : (eff + 1 - (i : Int)).toNat = 0 := by omega
        have h1 : (eff + 1 - ((i + 1 : Nat) : Int)).toNat = 0 := by push_cast; omega
        rw [linesAfter, if_pos h, linesAfter_eq_drop eff r (i + 1), h1, h0]
        simp
      · have h2 : (eff + 1 - (i : Int)).toNat = (eff + 1 - ((i + 1 : Nat) : Int)).toNat + 1 := by
          push_cast; omega
        rw [linesAfter, if_neg h, linesAfter_eq_drop eff r (i + 1), h2, List.drop_succ_cons]

theorem newLinesAfter_eq_drop {α : Type} (l : List α) (eff : Int) :
    newLinesAfter l eff = l.drop (eff + 1).toNat := by
  simp [newLinesAfter, linesAfter_eq_drop]

theorem scanCollect_fst {α : Type} (eff : Int) :
    ∀ (l : List α) (i : Nat) (lpi : Int), (scanCollect eff i lpi l).1 = linesAfter eff i l
  | [], i, lpi => by simp [scanCollect, linesAfter]
  | x :: r, i, lpi => by
      by_cases h : (i : Int) ≤ eff
      · simp [scanCollect, linesAfter, h, not_lt.mpr h, scanCollect_fst eff r (i + 1) lpi]
      · simp [scanCollect, linesAfter, h, lt_of_not_le h, scanCollect_fst eff r (i + 1) (i : Int)]

theorem scanCollect_snd {α : Type} (eff : Int) :
    ∀ (l : List α) (i : Nat) (lpi : Int),
      (scanCollect eff i lpi l).2 =
        if 0 < l.length ∧ eff < (i : Int) + l.length - 1 then (i : Int) + l.length - 1 else lpi
  | [], i, lpi => by simp [scanCollect]
  | x :: r, i, lpi => by
      by_cases h : (i : Int) ≤ eff
      · rw [scanCollect, if_pos h, scanCollect_snd eff r (i + 1) lpi]
        rcases Nat.eq_zero_or_pos r.length with h0 | h0
        · have : r = [] := List.length_eq_zero.mp h0
          subst this
          simp only [List.length_nil, List.length_cons]
          rw [if_neg (by omega), if_neg (by push_cast; omega)]
        · simp only [List.length_cons]
          by_cases hc : eff < (i : Int) + r.length
          · rw [if_pos (by constructor <;> push_cast <;> omega),
              if_pos (by constructor <;> push_cast <;> omega)]
            push_cast; omega
          · rw [if_neg (by push_cast; omega), if_neg (by push_cast; omega)]
      · rw [scanCollect, if_neg h, scanCollect_snd eff r (i + 1) (i : Int)]
        simp only [List.length_cons]
        rcases Nat.eq_zero_or_pos r.length with h0 | h0
        · have : r = [] := List.length_eq_zero.mp h0
          subst this
          simp only [List.length_nil]
          rw [if_neg (by omega), if_pos (by constructor <;> push_cast <;> omega)]
          push_cast; omega
        · rw [if_pos (by constructor <;> push_cast <;> omega),
            if_pos (by constructor <;> push_cast <;> omega)]
          push_cast; omega

theorem sentryScan_snd (g : Nat) (eff : Int) :
    ∀ (l : List SentryLine) (i : Nat) (lpi : Int),
      (sentryScan g eff i lpi l).2 =
        if 0 < l.length ∧ eff < (i : Int) + l.length - 1 then (i : Int) + l.length - 1 else lpi
  | [], i, lpi => by simp [sentryScan]
  | x :: r, i, lpi => by
      have key : (sentryScan g eff i lpi (x :: r)).2 =
          if (i : Int) ≤ eff then (sentryScan g eff (i + 1) lpi r).2
          else (sentryScan g eff (i + 1) (i : Int) r).2 := by
        by_cases h : (i : Int) ≤ eff
        · cases x <;> simp [sentryScan, h]
        · cases x <;> simp [sentryScan, h]
      rw [key]
      by_cases h : (i : Int) ≤ eff
      · rw [if_pos h, sentryScan_snd g eff r (i + 1) lpi]
        rcases Nat.eq_zero_or_pos r.length with h0 | h0
        · have : r = [] := List.length_eq_zero.mp h0
          subst this
          simp only [List.length_nil, List.length_cons]
          rw [if_neg (by omega), if_neg (by push_cast; omega)]
        · simp only [List.length_cons]
          by_cases hc : eff < (i : Int) + r.length
          · rw [if_pos (by constructor <;> push_cast <;> omega),
              if_pos (by constructor <;> push_cast <;> omega)]
            push_cast; omega
          · rw [if_neg (by push_cast; omega), if_neg (by push_cast; omega)]
      · rw [if_neg h, sentryScan_snd g eff r (i + 1) (i : Int)]
        simp only [List.length_cons]
        rcases Nat.eq_zero_or_pos r.length with h0 | h0
        · have : r = [] := List.length_eq_zero.mp h0
          subst this
          simp only [List.length_nil]
          rw [if_neg (by omega), if_pos (by constructor <;> push_cast <;> omega)]
          push_cast; omega
        · rw [if_pos (by constructor <;> push_cast <;> omega),
            if_pos (by constructor <;> push_cast <;> omega)]
          push_cast; omega

theorem sentryScan_all_skip (g : Nat) (eff : Int) :
    ∀ (l : List SentryLine) (i : Nat) (lpi : Int), (i : Int) + l.length - 1 ≤ eff →
      sentryScan g eff i lpi l = ([], lpi)
  | [], i, lpi, _ => by simp [sentryScan]
  | x :: r, i, lpi, h => by
      have hi : (i : Int) ≤ eff := by
        have := h
        simp only [List.length_cons] at this
        push_cast at this
        omega
      have hr : ((i + 1 : Nat) : Int) + r.length - 1 ≤ eff := by
        have := h
        simp only [List.length_cons] at this
        push_cast at this ⊢
        omega
      cases x <;> simp [sentryScan, hi, sentryScan_all_skip g eff r (i + 1) lpi hr]

theorem logScan_all_miss (t : LogType) (eff : Int) :
    ∀ (l : List LogLine) (i : Nat) (seen : List String) (lpi : Int),
      (∀ x ∈ l, x.len < 30 ∨ matchOf t x = none) →
      logScan t eff i seen lpi l = ([], lpi)
  | [], _, _, _, _ => by simp [logScan]
  | x :: r, i, seen, lpi, h => by
      have hr : ∀ y ∈ r, y.len < 30 ∨ matchOf t y = none := fun y hy => h y (by simp [hy])
      have hx := h x (by simp)
      by_cases hi : (i : Int) ≤ eff
      · simp [logScan, hi, logScan_all_miss t eff r (i + 1) seen lpi hr]
      · rcases hx with hx | hx
        · simp [logScan, hi, hx, logScan_all_miss t eff r (i + 1) seen lpi hr]
        · by_cases hs : x.len < 30
          · simp [logScan, hi, hs, logScan_all_miss t eff r (i + 1) seen lpi hr]
          · simp [logScan, hi, hs, hx, logScan_all_miss t eff r (i + 1) seen lpi hr]

/-! ### Kill-checkpoint pass lemmas -/

theorem kill_cp_early (f : KillFile) (g : Nat) (cp : Checkpoint)
    (h : newLinesAfter f.lines (effectiveLastLineKill cp f.name f.size) = []) :
    parse_kill_lines_with_checkpoint f g cp = ([], cp) := by
  rw [parse_kill_lines_with_checkpoint]
  by_cases hg : effectiveLastLineKill cp f.name f.size ≥ (f.lines.length : Int) - 1
  · rw [if_pos hg]
  · rw [if_neg hg]
    simp only [h, List.isEmpty_nil, if_pos]

theorem kill_cp_guard (f : KillFile) (g : Nat) (cp : Checkpoint)
    (h : effectiveLastLineKill cp f.name f.size ≥ (f.lines.length : Int) - 1) :
    parse_kill_lines_with_checkpoint f g cp = ([], cp) := by
  rw [parse_kill_lines_with_checkpoint, if_pos h]

theorem kill_cp_main (f : KillFile) (g : Nat) (cp : Checkpoint)
    (h : newLinesAfter f.lines (effectiveLastLineKill cp f.name f.size) ≠ []) :
    parse_kill_lines_with_checkpoint f g cp =
      (parse_kill_lines (newLinesAfter f.lines (effectiveLastLineKill cp f.name f.size)) g,
        { lastFile := some f.name,
          lastLine := effectiveLastLineKill cp f.name f.size +
            (newLinesAfter f.lines (effectiveLastLineKill cp f.name f.size)).length,
          lastTimestamp := (parse_kill_lines
            (newLinesAfter f.lines (effectiveLastLineKill cp f.name f.size)) g).getLast?.map
              (fun e => e.ts),
          lastFileSize := some f.size,
          lastChecksum := some (match (parse_kill_lines
            (newLinesAfter f.lines (effectiveLastLineKill cp f.name f.size)) g).getLast? with
            | some e => killSig e
            | none => ""),
          lastMessage := some (match (parse_kill_lines
            (newLinesAfter f.lines (effectiveLastLineKill cp f.name f.size)) g).getLast? with
            | some e => killSig e
            | none => "") }) := by
  have hlen : 0 < (newLinesAfter f.lines (effectiveLastLineKill cp f.name f.size)).length :=
    List.length_pos.mpr h
  have hdrop := newLinesAfter_eq_drop f.lines (effectiveLastLineKill cp f.name f.size)
  have hg : ¬ (effectiveLastLineKill cp f.name f.size ≥ (f.lines.length : Int) - 1) := by
    intro hc
    rw [hdrop] at hlen
    rw [List.length_drop] at hlen
    omega
  rw [parse_kill_lines_with_checkpoint, if_neg hg]
  simp only [List.isEmpty_iff, h]
  simp

/-- Claim C8: a checkpoint whose stored file name differs from the
current file, or whose stored size exceeds the current size for the
same name, resets the effective last-line index to -1 in both the
kill/admin/sentry form and the chat/login form of the test, so the pass
scans from line 0 (every line counts as new). -/
theorem claim_C8 (cp : Checkpoint) (name : String) (size : Nat)
    (h : cp.lastFile ≠ some name ∨ (cp.lastFile = some name ∧ ∃ s, cp.lastFileSize = some s ∧ size < s)) :
    effectiveLastLineKill cp name size = -1 ∧ effectiveLastLineLog cp name size = -1 ∧
    (∀ (lines : List KillLine), newLinesAfter lines (effectiveLastLineKill cp name size) = lines) := by
  have hk : resetKill cp name size = true := by
    rcases h with h | ⟨_, s, hs, hlt⟩
    · simp [resetKill, h]
    · simp [resetKill, hs, hlt]
  have hl : resetLog cp name size = true := by
    rcases h with h | ⟨_, s, hs, hlt⟩
    · simp [resetLog, h]
    · simp [resetLog, hs, hlt]
  refine ⟨by simp [effectiveLastLineKill, hk], by simp [effectiveLastLineLog, hl], ?_⟩
  intro lines
  rw [newLinesAfter_eq_drop]
  simp [effectiveLastLineKill, hk]

theorem claim_C8_witness :
    effectiveLastLineKill { defaultCheckpoint with lastFile := some "kill_old.log", lastLine := 7, lastFileSize := some 90 } "kill_new.log" 50 = -1 ∧
    effectiveLastLineLog { defaultCheckpoint with lastFile := some "kill_old.log", lastLine := 7, lastFileSize := some 90 } "kill_new.log" 50 = -1 ∧
    newLinesAfter [KillLine.noise, KillLine.noise] (effectiveLastLineKill { defaultCheckpoint with lastFile := some "kill_old.log", lastLine := 7, lastFileSize := some 90 } "kill_new.log" 50) = [KillLine.noise, KillLine.noise] := by
  have h := claim_C8 { defaultCheckpoint with lastFile := some "kill_old.log", lastLine := 7, lastFileSize := some 90 } "kill_new.log" 50 (by left; decide)
  exact ⟨h.1, h.2.1, h.2.2 [KillLine.noise, KillLine.noise]⟩

/-- Claim C6: when the host and port select the FTP family, no backoff
window is active and the remembered preference is absent or `aioftp`,
a primary-FTP failure matching the known EPSV/PASV signature sets the
24-hour backoff for the target, downgrades the remembered preference to
`safe_ftp`, and the same tick still returns the stats of the successful
safe-FTP fallback (no error escapes to the scheduler). -/
theorem claim_C6 (st : TransportState) (g : GuildCfg) (now : Nat)
    (sftpRes : FtpResult) (e : ErrText) (s : ScanStats)
    (hHost : strContains (pyLower (pyStrip g.host)) "sftp" = false)
    (hPort : g.port ≠ 22)
    (hPref : alookup st.pref g.guildId = none ∨ alookup st.pref g.guildId = some Transport.aioftp)
    (hBo : (alookup st.backoffUntil g.guildId).getD 0 ≤ now)
    (hInc : aioftp_known_incompatible e = true) :
    alookup (process_guild_transport st g now sftpRes (FtpResult.err e) (FtpResult.ok s)).1.backoffUntil g.guildId =
      some (now + AIOFTP_BACKOFF_SECONDS) ∧
    alookup (process_guild_transport st g now sftpRes (FtpResult.err e) (FtpResult.ok s)).1.pref g.guildId =
      some Transport.safe_ftp ∧
    (process_guild_transport st g now sftpRes (FtpResult.err e) (FtpResult.ok s)).2 = some s := by
  have hbo2 : decide ((alookup st.backoffUntil g.guildId).getD 0 > now) = false := by
    simp [hBo, not_lt.mpr hBo]
  have hbase : choose_transport (pyLower (pyStrip g.host)) g.port = BaseTransport.ftp := by
    simp [choose_transport, hHost, hPort]
  rcases hPref with hp | hp
  · simp [process_guild_transport, hbo2, hbase, hp, hInc,
      alookup_aset_self]
  · simp [process_guild_transport, hbo2, hbase, hp, hInc,
      alookup_aset_self]

theorem claim_C6_witness :
    alookup (process_guild_transport { pref := [], backoffUntil := [] } { guildId := 7, host := "games.example.com", port := 21 } 1000 (FtpResult.err { hasWait229Got227 := false, hasWait229 := false, has227 := false }) (FtpResult.err { hasWait229Got227 := true, hasWait229 := true, has227 := true }) (FtpResult.ok { files := 2, chat := 1, login := 0, kill := 1, admin := 0, sentry := 0 })).1.backoffUntil 7 = some (1000 + AIOFTP_BACKOFF_SECONDS) ∧
    alookup (process_guild_transport { pref := [], backoffUntil := [] } { guildId := 7, host := "games.example.com", port := 21 } 1000 (FtpResult.err { hasWait229Got227 := false, hasWait229 := false, has227 := false }) (FtpResult.err { hasWait229Got227 := true, hasWait229 := true, has227 := true }) (FtpResult.ok { files := 2, chat := 1, login := 0, kill := 1, admin := 0, sentry := 0 })).1.pref 7 = some Transport.safe_ftp ∧
    (process_guild_transport { pref := [], backoffUntil := [] } { guildId := 7, host := "games.example.com", port := 21 } 1000 (FtpResult.err { hasWait229Got227 := false, hasWait229 := false, has227 := false }) (FtpResult.err { hasWait229Got227 := true, hasWait229 := true, has227 := true }) (FtpResult.ok { files := 2, chat := 1, login := 0, kill := 1, admin := 0, sentry := 0 })).2 = some { files := 2, chat := 1, login := 0, kill := 1, admin := 0, sentry := 0 } :=
  claim_C6 { pref := [], backoffUntil := [] } { guildId := 7, host := "games.example.com", port := 21 } 1000
    (FtpResult.err { hasWait229Got227 := false, hasWait229 := false, has227 := false })
    { hasWait229Got227 := true, hasWait229 := true, has227 := true }
    { files := 2, chat := 1, login := 0, kill := 1, admin := 0, sentry := 0 }
    (by decide) (by decide) (Or.inl (by decide)) (by decide) (by decide)

/-! ### Per-parser checkpoint-advance and idempotence lemmas -/

theorem eff_kill_ge (cp : Checkpoint) (name : String) (size : Nat) (h1 : -1 ≤ cp.lastLine) :
    -1 ≤ effectiveLastLineKill cp name size := by
  unfold effectiveLastLineKill
  split <;> omega

theorem admin_cp_advance (f : AdminFile) (g : Nat) (cp : Checkpoint)
    (h1 : -1 ≤ cp.lastLine)
    (h2 : newLinesAfter f.lines (effectiveLastLineKill cp f.name f.size) ≠ []) :
    (parse_admin_file f g cp).2.lastLine =
      effectiveLastLineKill cp f.name f.size +
        (newLinesAfter f.lines (effectiveLastLineKill cp f.name f.size)).length := by
  have heff : -1 ≤ effectiveLastLineKill cp f.name f.size := eff_kill_ge cp f.name f.size h1
  have hN : 0 < (newLinesAfter f.lines (effectiveLastLineKill cp f.name f.size)).length :=
    List.length_pos.mpr h2
  have hlen : (newLinesAfter f.lines (effectiveLastLineKill cp f.name f.size)).length =
      f.lines.length - (effectiveLastLineKill cp f.name f.size + 1).toNat := by
    rw [newLinesAfter_eq_drop, List.length_drop]
  have hlt : (effectiveLastLineKill cp f.name f.size + 1).toNat < f.lines.length := by omega
  have hcond : 0 < f.lines.length ∧
      effectiveLastLineKill cp f.name f.size < ((0 : Nat) : Int) + f.lines.length - 1 := by
    constructor
    · omega
    · push_cast
      omega
  rw [parse_admin_file]
  simp only [scanCollect_snd, if_pos hcond]
  rw [if_pos (by push_cast; omega)]
  push_cast
  omega

theorem sentry_cp_advance (f : SentryFile) (g : Nat) (cp : Checkpoint)
    (h1 : -1 ≤ cp.lastLine)
    (h2 : newLinesAfter f.lines (effectiveLastLineKill cp f.name f.size) ≠ []) :
    (parse_sentry_file f g cp).2.lastLine =
      effectiveLastLineKill cp f.name f.size +
        (newLinesAfter f.lines (effectiveLastLineKill cp f.name f.size)).length := by
  have heff : -1 ≤ effectiveLastLineKill cp f.name f.size := eff_kill_ge cp f.name f.size h1
  have hN : 0 < (newLinesAfter f.lines (effectiveLastLineKill cp f.name f.size)).length :=
    List.length_pos.mpr h2
  have hlen : (newLinesAfter f.lines (effectiveLastLineKill cp f.name f.size)).length =
      f.lines.length - (effectiveLastLineKill cp f.name f.size + 1).toNat := by
    rw [newLinesAfter_eq_drop, List.length_drop]
  have hlt : (effectiveLastLineKill cp f.name f.size + 1).toNat < f.lines.length := by omega
  have hcond : 0 < f.lines.length ∧
      effectiveLastLineKill cp f.name f.size < ((0 : Nat) : Int) + f.lines.length - 1 := by
    constructor
    · omega
    · push_cast
      omega
  rw [parse_sentry_file]
  simp only [sentryScan_snd, if_pos hcond]
  rw [if_pos (by push_cast; omega)]
  push_cast
  omega

theorem kill_cp_main_fields (f : KillFile) (g : Nat) (cp : Checkpoint)
    (h : newLinesAfter f.lines (effectiveLastLineKill cp f.name f.size) ≠ []) :
    (parse_kill_lines_with_checkpoint f g cp).2.lastFile = some f.name ∧
    (parse_kill_lines_with_checkpoint f g cp).2.lastLine =
      effectiveLastLineKill cp f.name f.size +
        (newLinesAfter f.lines (effectiveLastLineKill cp f.name f.size)).length ∧
    (parse_kill_lines_with_checkpoint f g cp).2.lastFileSize = some f.size := by
  rw [kill_cp_main f g cp h]
  exact ⟨rfl, rfl, rfl⟩

theorem kill_idem (f : KillFile) (g : Nat) (cp : Checkpoint) (h1 : -1 ≤ cp.lastLine) :
    (parse_kill_lines_with_checkpoint f g (parse_kill_lines_with_checkpoint f g cp).2).1 = [] ∧
    (parse_kill_lines_with_checkpoint f g (parse_kill_lines_with_checkpoint f g cp).2).2 =
      (parse_kill_lines_with_checkpoint f g cp).2 := by
  by_cases h : newLinesAfter f.lines (effectiveLastLineKill cp f.name f.size) = []
  · rw [kill_cp_early f g cp h, kill_cp_early f g cp h]
    exact ⟨rfl, rfl⟩
  · obtain ⟨hf1, hf2, hf3⟩ := kill_cp_main_fields f g cp h
    have heff : -1 ≤ effectiveLastLineKill cp f.name f.size := eff_kill_ge cp f.name f.size h1
    have hN : 0 < (newLinesAfter f.lines (effectiveLastLineKill cp f.name f.size)).length :=
      List.length_pos.mpr h
    have hlen : (newLinesAfter f.lines (effectiveLastLineKill cp f.name f.size)).length =
        f.lines.length - (effectiveLastLineKill cp f.name f.size + 1).toNat := by
      rw [newLinesAfter_eq_drop, List.length_drop]
    have hr : resetKill (parse_kill_lines_with_checkpoint f g cp).2 f.name f.size = false := by
      rw [resetKill, hf1, hf3]
      simp
    have hg2 : effectiveLastLineKill (parse_kill_lines_with_checkpoint f g cp).2 f.name f.size ≥
        (f.lines.length : Int) - 1 := by
      simp only [effectiveLastLineKill, hr]
      simp only [Bool.false_eq_true, if_false, hf2]
      omega
    rw [kill_cp_guard f g _ hg2]
    exact ⟨rfl, rfl⟩

theorem admin_cp_early (f : AdminFile) (g : Nat) (cp : Checkpoint)
    (hno : newLinesAfter f.lines (effectiveLastLineKill cp f.name f.size) = []) :
    parse_admin_file f g cp = ([], cp) := by
  have hd := newLinesAfter_eq_drop f.lines (effectiveLastLineKill cp f.name f.size)
  have hlen0 : f.lines.length ≤ (effectiveLastLineKill cp f.name f.size + 1).toNat := by
    rw [hd] at hno
    have hl := congrArg List.length hno
    rw [List.length_drop] at hl
    simp only [List.length_nil] at hl
    omega
  have hcondF : ¬(0 < f.lines.length ∧
      effectiveLastLineKill cp f.name f.size < ((0 : Nat) : Int) + f.lines.length - 1) := by
    push_cast
    omega
  have hla : linesAfter (effectiveLastLineKill cp f.name f.size) 0 f.lines = [] := hno
  rw [parse_admin_file]
  simp only [scanCollect_fst, scanCollect_snd, if_neg hcondF, hla, lt_irrefl, if_false]
  simp [parse_admin_lines]

theorem admin_cp_write (f : AdminFile) (g : Nat) (cp : Checkpoint)
    (h1 : -1 ≤ cp.lastLine)
    (h2 : newLinesAfter f.lines (effectiveLastLineKill cp f.name f.size) ≠ []) :
    (parse_admin_file f g cp).2.lastFile = some f.name ∧
    (parse_admin_file f g cp).2.lastLine =
      effectiveLastLineKill cp f.name f.size +
        (newLinesAfter f.lines (effectiveLastLineKill cp f.name f.size)).length ∧
    (parse_admin_file f g cp).2.lastFileSize = some f.size := by
  have heff : -1 ≤ effectiveLastLineKill cp f.name f.size := eff_kill_ge cp f.name f.size h1
  have hN : 0 < (newLinesAfter f.lines (effectiveLastLineKill cp f.name f.size)).length :=
    List.length_pos.mpr h2
  have hlen : (newLinesAfter f.lines (effectiveLastLineKill cp f.name f.size)).length =
      f.lines.length - (effectiveLastLineKill cp f.name f.size + 1).toNat := by
    rw [newLinesAfter_eq_drop, List.length_drop]
  have hlt : (effectiveLastLineKill cp f.name f.size + 1).toNat < f.lines.length := by omega
  have hcond : 0 < f.lines.length ∧
      effectiveLastLineKill cp f.name f.size < ((0 : Nat) : Int) + f.lines.length - 1 := by
    constructor
    · omega
    · push_cast
      omega
  rw [parse_admin_file]
  simp only [scanCollect_snd, if_pos hcond]
  rw [if_pos (by push_cast; omega)]
  refine ⟨rfl, ?_, rfl⟩
  push_cast
  omega

theorem admin_idem (f : AdminFile) (g : Nat) (cp : Checkpoint) (h1 : -1 ≤ cp.lastLine) :
    (parse_admin_file f g (parse_admin_file f g cp).2).1 = [] ∧
    (parse_admin_file f g (parse_admin_file f g cp).2).2 = (parse_admin_file f g cp).2 := by
  by_cases h : newLinesAfter f.lines (effectiveLastLineKill cp f.name f.size) = []
  · rw [admin_cp_early f g cp h, admin_cp_early f g cp h]
    exact ⟨rfl, rfl⟩
  · obtain ⟨hf1, hf2, hf3⟩ := admin_cp_write f g cp h1 h
    have heff : -1 ≤ effectiveLastLineKill cp f.name f.size := eff_kill_ge cp f.name f.size h1
    have hN : 0 < (newLinesAfter f.lines (effectiveLastLineKill cp f.name f.size)).length :=
      List.length_pos.mpr h
    have hlen : (newLinesAfter f.lines (effectiveLastLineKill cp f.name f.size)).length =
        f.lines.length - (effectiveLastLineKill cp f.name f.size + 1).toNat := by
      rw [newLinesAfter_eq_drop, List.length_drop]
    have hr : resetKill (parse_admin_file f g cp).2 f.name f.size = false := by
      rw [resetKill, hf1, hf3]
      simp
    have heff2 : effectiveLastLineKill (parse_admin_file f g cp).2 f.name f.size =
        effectiveLastLineKill cp f.name f.size +
          (newLinesAfter f.lines (effectiveLastLineKill cp f.name f.size)).length := by
      simp only [effectiveLastLineKill, hr, Bool.false_eq_true, if_false, hf2]
    have hnew2 : newLinesAfter f.lines
        (effectiveLastLineKill (parse_admin_file f g cp).2 f.name f.size) = [] := by
      rw [heff2, newLinesAfter_eq_drop]
      apply List.drop_eq_nil_of_le
      omega
    rw [admin_cp_early f g _ hnew2]
    exact ⟨rfl, rfl⟩

theorem sentry_cp_early (f : SentryFile) (g : Nat) (cp : Checkpoint)
    (heff : -1 ≤ effectiveLastLineKill cp f.name f.size)
    (hno : newLinesAfter f.lines (effectiveLastLineKill cp f.name f.size) = []) :
    parse_sentry_file f g cp = (([], 0), cp) := by
  have hd := newLinesAfter_eq_drop f.lines (effectiveLastLineKill cp f.name f.size)
  have hlen0 : f.lines.length ≤ (effectiveLastLineKill cp f.name f.size + 1).toNat := by
    rw [hd] at hno
    have hl := congrArg List.length hno
    rw [List.length_drop] at hl
    simp only [List.length_nil] at hl
    omega
  have hle : ((0 : Nat) : Int) + f.lines.length - 1 ≤ effectiveLastLineKill cp f.name f.size := by
    push_cast
    omega
  have hscan := sentryScan_all_skip g (effectiveLastLineKill cp f.name f.size) f.lines 0
    (effectiveLastLineKill cp f.name f.size) hle
  rw [parse_sentry_file]
  simp only [hscan, lt_irrefl, if_false]

theorem sentry_cp_write (f : SentryFile) (g : Nat) (cp : Checkpoint)
    (h1 : -1 ≤ cp.lastLine)
    (h2 : newLinesAfter f.lines (effectiveLastLineKill cp f.name f.size) ≠ []) :
    (parse_sentry_file f g cp).2.lastFile = some f.name ∧
    (parse_sentry_file f g cp).2.lastLine =
      effectiveLastLineKill cp f.name f.size +
        (newLinesAfter f.lines (effectiveLastLineKill cp f.name f.size)).length ∧
    (parse_sentry_file f g cp).2.lastFileSize = some f.size := by
  have heff : -1 ≤ effectiveLastLineKill cp f.name f.size := eff_kill_ge cp f.name f.size h1
  have hN : 0 < (newLinesAfter f.lines (effectiveLastLineKill cp f.name f.size)).length :=
    List.length_pos.mpr h2
  have hlen : (newLinesAfter f.lines (effectiveLastLineKill cp f.name f.size)).length =
      f.lines.length - (effectiveLastLineKill cp f.name f.size + 1).toNat := by
    rw [newLinesAfter_eq_drop, List.length_drop]
  have hlt : (effectiveLastLineKill cp f.name f.size + 1).toNat < f.lines.length := by omega
  have hcond : 0 < f.lines.length ∧
      effectiveLastLineKill cp f.name f.size < ((0 : Nat) : Int) + f.lines.length - 1 := by
    constructor
    · omega
    · push_cast
      omega
  rw [parse_sentry_file]
  simp only [sentryScan_snd, if_pos hcond]
  rw [if_pos (by push_cast; omega)]
  refine ⟨rfl, ?_, rfl⟩
  push_cast
  omega

theorem sentry_idem (f : SentryFile) (g : Nat) (cp : Checkpoint) (h1 : -1 ≤ cp.lastLine) :
    (parse_sentry_file f g (parse_sentry_file f g cp).2).1.1 = [] ∧
    (parse_sentry_file f g (parse_sentry_file f g cp).2).2 = (parse_sentry_file f g cp).2 := by
  have heff : -1 ≤ effectiveLastLineKill cp f.name f.size := eff_kill_ge cp f.name f.size h1
  by_cases h : newLinesAfter f.lines (effectiveLastLineKill cp f.name f.size) = []
  · rw [sentry_cp_early f g cp heff h, sentry_cp_early f g cp heff h]
    exact ⟨rfl, rfl⟩
  · obtain ⟨hf1, hf2, hf3⟩ := sentry_cp_write f g cp h1 h
    have hN : 0 < (newLinesAfter f.lines (effectiveLastLineKill cp f.name f.size)).length :=
      List.length_pos.mpr h
    have hlen : (newLinesAfter f.lines (effectiveLastLineKill cp f.name f.size)).length =
        f.lines.length - (effectiveLastLineKill cp f.name f.size + 1).toNat := by
      rw [newLinesAfter_eq_drop, List.length_drop]
    have hr : resetKill (parse_sentry_file f g cp).2 f.name f.size = false := by
      rw [resetKill, hf1, hf3]
      simp
    have heff2 : effectiveLastLineKill (parse_sentry_file f g cp).2 f.name f.size =
        effectiveLastLineKill cp f.name f.size +
          (newLinesAfter f.lines (effectiveLastLineKill cp f.name f.size)).length := by
      simp only [effectiveLastLineKill, hr, Bool.false_eq_true, if_false, hf2]
    have heff2ge : -1 ≤ effectiveLastLineKill (parse_sentry_file f g cp).2 f.name f.size := by
      rw [heff2]
      omega
    have hnew2 : newLinesAfter f.lines
        (effectiveLastLineKill (parse_sentry_file f g cp).2 f.name f.size) = [] := by
      rw [heff2, newLinesAfter_eq_drop]
      apply List.drop_eq_nil_of_le
      omega
    rw [sentry_cp_early f g _ heff2ge hnew2]
    exact ⟨rfl, rfl⟩

theorem log_no_match (f : LogFile) (g : Nat) (t : LogType) (cp : Checkpoint)
    (h : ∀ x ∈ f.lines, x.len < 30 ∨ matchOf t x = none) :
    parse_log_file f g t cp = ([], cp) := by
  rw [parse_log_file]
  simp only [logScan_all_miss t (effectiveLastLineLog cp f.name f.size) f.lines 0 []
    (effectiveLastLineLog cp f.name f.size) h, lt_irrefl, if_false]


/-- Claim C1 (corrected).  The kill, admin and sentry parsers advance
the stored line index by exactly the number N of lines scanned beyond
the effective last-line index, regardless of how many matched; the chat
and login parser (`parse_log_file`) does not: its stored index only
moves to the last matching, non-duplicate line, and when no new line
matches the pattern (or all are shorter than 30 characters) the
checkpoint is not written at all and no entries are emitted. -/
theorem claim_C1 :
    (∀ (f : KillFile) (g : Nat) (cp : Checkpoint),
      newLinesAfter f.lines (effectiveLastLineKill cp f.name f.size) ≠ [] →
      (parse_kill_lines_with_checkpoint f g cp).2.lastLine =
        effectiveLastLineKill cp f.name f.size +
          (newLinesAfter f.lines (effectiveLastLineKill cp f.name f.size)).length) ∧
    (∀ (f : AdminFile) (g : Nat) (cp : Checkpoint), -1 ≤ cp.lastLine →
      newLinesAfter f.lines (effectiveLastLineKill cp f.name f.size) ≠ [] →
      (parse_admin_file f g cp).2.lastLine =
        effectiveLastLineKill cp f.name f.size +
          (newLinesAfter f.lines (effectiveLastLineKill cp f.name f.size)).length) ∧
    (∀ (f : SentryFile) (g : Nat) (cp : Checkpoint), -1 ≤ cp.lastLine →
      newLinesAfter f.lines (effectiveLastLineKill cp f.name f.size) ≠ [] →
      (parse_sentry_file f g cp).2.lastLine =
        effectiveLastLineKill cp f.name f.size +
          (newLinesAfter f.lines (effectiveLastLineKill cp f.name f.size)).length) ∧
    (∀ (f : LogFile) (g : Nat) (t : LogType) (cp : Checkpoint),
      (∀ x ∈ f.lines, x.len < 30 ∨ matchOf t x = none) →
      parse_log_file f g t cp = ([], cp)) :=
  ⟨fun f g cp h => (kill_cp_main_fields f g cp h).2.1,
   fun f g cp h1 h2 => (admin_cp_write f g cp h1 h2).2.1,
   fun f g cp h1 h2 => (sentry_cp_write f g cp h1 h2).2.1,
   log_no_match⟩

/-- Counterexample to claim C1 as stated: a chat pass over two fresh
lines (a matching line at index 0, a 40-character noise line at
index 1) scans N = 2 lines, yet the stored line index afterwards is 0,
not -1 + 2 = 1 — the chat/login parser advances only to the last
matching line. -/
theorem claim_C1_counterexample :
    (parse_log_file
        { name := "chat_a.log", size := 100,
          lines := [{ len := 40, groups := some ({ date := "2024.01.02", hh := "03", mm := "04", ss := "05" }, LogGroups.chatG "761" "al" "9" "Local" "hello") },
                    { len := 40, groups := none }] }
        1 LogType.chat defaultCheckpoint).2.lastLine = 0 ∧
    (newLinesAfter [(0 : Nat), 1] (effectiveLastLineLog defaultCheckpoint "chat_a.log" 100)).length = 2 ∧
    ¬((0 : Int) = effectiveLastLineLog defaultCheckpoint "chat_a.log" 100 + 2) := by
  decide

theorem claim_C1_witness :
    ((parse_kill_lines_with_checkpoint
        { name := "kill_w.log", size := 10, lines := [KillLine.noise, KillLine.noise] }
        1 defaultCheckpoint).2.lastLine =
      effectiveLastLineKill defaultCheckpoint "kill_w.log" 10 +
        (newLinesAfter [KillLine.noise, KillLine.noise]
          (effectiveLastLineKill defaultCheckpoint "kill_w.log" 10)).length) ∧
    ((parse_admin_file
        { name := "admin_w.log", size := 10, lines := [AdminLine.noise] }
        1 defaultCheckpoint).2.lastLine =
      effectiveLastLineKill defaultCheckpoint "admin_w.log" 10 +
        (newLinesAfter [AdminLine.noise]
          (effectiveLastLineKill defaultCheckpoint "admin_w.log" 10)).length) ∧
    ((parse_sentry_file
        { name := "sentry_w.log", size := 10, lines := [SentryLine.noise] }
        1 defaultCheckpoint).2.lastLine =
      effectiveLastLineKill defaultCheckpoint "sentry_w.log" 10 +
        (newLinesAfter [SentryLine.noise]
          (effectiveLastLineKill defaultCheckpoint "sentry_w.log" 10)).length) ∧
    (parse_log_file { name := "chat_w.log", size := 10, lines := [{ len := 10, groups := none }] }
        1 LogType.chat defaultCheckpoint = ([], defaultCheckpoint)) :=
  ⟨claim_C1.1 { name := "kill_w.log", size := 10, lines := [KillLine.noise, KillLine.noise] }
      1 defaultCheckpoint (by decide),
   claim_C1.2.1 { name := "admin_w.log", size := 10, lines := [AdminLine.noise] }
      1 defaultCheckpoint (by decide) (by decide),
   claim_C1.2.2.1 { name := "sentry_w.log", size := 10, lines := [SentryLine.noise] }
      1 defaultCheckpoint (by decide) (by decide),
   claim_C1.2.2.2 { name := "chat_w.log", size := 10, lines := [{ len := 10, groups := none }] }
      1 LogType.chat defaultCheckpoint (by decide)⟩

/-- Claim C7 (corrected).  Idempotent advancement holds for the kill,
admin and sentry parsers: re-running against the same unchanged file
with the checkpoint the first run produced emits nothing and leaves the
checkpoint unchanged.  It fails for the chat/login parser (see the
counterexample: the per-pass `seen_lines` set lets a line that was
deduplicated in the first pass be re-emitted by the second). -/
theorem claim_C7 :
    (∀ (f : KillFile) (g : Nat) (cp : Checkpoint), -1 ≤ cp.lastLine →
      (parse_kill_lines_with_checkpoint f g (parse_kill_lines_with_checkpoint f g cp).2).1 = [] ∧
      (parse_kill_lines_with_checkpoint f g (parse_kill_lines_with_checkpoint f g cp).2).2 =
        (parse_kill_lines_with_checkpoint f g cp).2) ∧
    (∀ (f : AdminFile) (g : Nat) (cp : Checkpoint), -1 ≤ cp.lastLine →
      (parse_admin_file f g (parse_admin_file f g cp).2).1 = [] ∧
      (parse_admin_file f g (parse_admin_file f g cp).2).2 = (parse_admin_file f g cp).2) ∧
    (∀ (f : SentryFile) (g : Nat) (cp : Checkpoint), -1 ≤ cp.lastLine →
      (parse_sentry_file f g (parse_sentry_file f g cp).2).1.1 = [] ∧
      (parse_sentry_file f g (parse_sentry_file f g cp).2).2 = (parse_sentry_file f g cp).2) :=
  ⟨kill_idem, admin_idem, sentry_idem⟩

/-- Counterexample to claim C7 as stated: a chat file with two
identical matching lines.  The first pass emits one record and stores
line index 0; the second pass, whose duplicate-detection set starts
empty, re-emits the line at index 1 and moves the checkpoint — so the
second run is not a no-op. -/
theorem claim_C7_counterexample :
    (parse_log_file
        { name := "chat_a.log", size := 100,
          lines := [{ len := 40, groups := some ({ date := "2024.01.02", hh := "03", mm := "04", ss := "05" }, LogGroups.chatG "761" "al" "9" "Local" "hi") },
                    { len := 40, groups := some ({ date := "2024.01.02", hh := "03", mm := "04", ss := "05" }, LogGroups.chatG "761" "al" "9" "Local" "hi") }] }
        1 LogType.chat
        (parse_log_file
          { name := "chat_a.log", size := 100,
            lines := [{ len := 40, groups := some ({ date := "2024.01.02", hh := "03", mm := "04", ss := "05" }, LogGroups.chatG "761" "al" "9" "Local" "hi") },
                      { len := 40, groups := some ({ date := "2024.01.02", hh := "03", mm := "04", ss := "05" }, LogGroups.chatG "761" "al" "9" "Local" "hi") }] }
          1 LogType.chat defaultCheckpoint).2).1 ≠ [] ∧
    (parse_log_file
        { name := "chat_a.log", size := 100,
          lines := [{ len := 40, groups := some ({ date := "2024.01.02", hh := "03", mm := "04", ss := "05" }, LogGroups.chatG "761" "al" "9" "Local" "hi") },
                    { len := 40, groups := some ({ date := "2024.01.02", hh := "03", mm := "04", ss := "05" }, LogGroups.chatG "761" "al" "9" "Local" "hi") }] }
        1 LogType.chat
        (parse_log_file
          { name := "chat_a.log", size := 100,
            lines := [{ len := 40, groups := some ({ date := "2024.01.02", hh := "03", mm := "04", ss := "05" }, LogGroups.chatG "761" "al" "9" "Local" "hi") },
                      { len := 40, groups := some ({ date := "2024.01.02", hh := "03", mm := "04", ss := "05" }, LogGroups.chatG "761" "al" "9" "Local" "hi") }] }
          1 LogType.chat defaultCheckpoint).2).2 ≠
      (parse_log_file
          { name := "chat_a.log", size := 100,
            lines := [{ len := 40, groups := some ({ date := "2024.01.02", hh := "03", mm := "04", ss := "05" }, LogGroups.chatG "761" "al" "9" "Local" "hi") },
                      { len := 40, groups := some ({ date := "2024.01.02", hh := "03", mm := "04", ss := "05" }, LogGroups.chatG "761" "al" "9" "Local" "hi") }] }
          1 LogType.chat defaultCheckpoint).2 := by
  decide

theorem claim_C7_witness :
    ((parse_kill_lines_with_checkpoint
        { name := "kill_w.log", size := 10, lines := [KillLine.noise, KillLine.noise] } 1
        (parse_kill_lines_with_checkpoint
          { name := "kill_w.log", size := 10, lines := [KillLine.noise, KillLine.noise] } 1
          defaultCheckpoint).2).1 = [] ∧
      (parse_kill_lines_with_checkpoint
        { name := "kill_w.log", size := 10, lines := [KillLine.noise, KillLine.noise] } 1
        (parse_kill_lines_with_checkpoint
          { name := "kill_w.log", size := 10, lines := [KillLine.noise, KillLine.noise] } 1
          defaultCheckpoint).2).2 =
        (parse_kill_lines_with_checkpoint
          { name := "kill_w.log", size := 10, lines := [KillLine.noise, KillLine.noise] } 1
          defaultCheckpoint).2) ∧
    ((parse_admin_file { name := "admin_w.log", size := 10, lines := [AdminLine.noise] } 1
        (parse_admin_file { name := "admin_w.log", size := 10, lines := [AdminLine.noise] } 1
          defaultCheckpoint).2).1 = [] ∧
      (parse_admin_file { name := "admin_w.log", size := 10, lines := [AdminLine.noise] } 1
        (parse_admin_file { name := "admin_w.log", size := 10, lines := [AdminLine.noise] } 1
          defaultCheckpoint).2).2 =
        (parse_admin_file { name := "admin_w.log", size := 10, lines := [AdminLine.noise] } 1
          defaultCheckpoint).2) ∧
    ((parse_sentry_file { name := "sentry_w.log", size := 10, lines := [SentryLine.noise] } 1
        (parse_sentry_file { name := "sentry_w.log", size := 10, lines := [SentryLine.noise] } 1
          defaultCheckpoint).2).1.1 = [] ∧
      (parse_sentry_file { name := "sentry_w.log", size := 10, lines := [SentryLine.noise] } 1
        (parse_sentry_file { name := "sentry_w.log", size := 10, lines := [SentryLine.noise] } 1
          defaultCheckpoint).2).2 =
        (parse_sentry_file { name := "sentry_w.log", size := 10, lines := [SentryLine.noise] } 1
          defaultCheckpoint).2) :=
  ⟨claim_C7.1 { name := "kill_w.log", size := 10, lines := [KillLine.noise, KillLine.noise] } 1
      defaultCheckpoint (by decide),
   claim_C7.2.1 { name := "admin_w.log", size := 10, lines := [AdminLine.noise] } 1
      defaultCheckpoint (by decide),
   claim_C7.2.2 { name := "sentry_w.log", size := 10, lines := [SentryLine.noise] } 1
      defaultCheckpoint (by decide)⟩

/-- Claim C2 (corrected).  The checkpoint for (target, "kill") is
written by `parse_kill_lines_with_checkpoint` itself, through its own
connection, before persistence starts: the checkpoint after a pass
whose stats loop fails at any event index equals the checkpoint of a
fully successful pass, so the same lines are NOT re-examined on the
next pass.  The visible store after the failure is the kill-row insert
plus the per-event statements of the events before the failing one
(each statement commits on its own, `autocommit: True`); when the
failure index is past the batch, the pass coincides with the
successful one. -/
theorem claim_C2_amended (f : KillFile) (g : Nat) (cp : Checkpoint) (db : Db) (k : Nat) :
    (processKillFileWithFailure f g cp db k).2 = (processKillFile f g cp db).2 ∧
    (processKillFileWithFailure f g cp db k).1 =
      saveKillsUpTo (parse_kill_lines_with_checkpoint f g cp).1 g db k ∧
    ((parse_kill_lines_with_checkpoint f g cp).1.length ≤ k →
      processKillFileWithFailure f g cp db k = processKillFile f g cp db) := by
  refine ⟨rfl, rfl, fun h => ?_⟩
  simp only [processKillFileWithFailure, processKillFile, saveKillsUpTo,
    save_kills_and_update_stats, List.take_of_length_le h]

/-- Counterexample to claim C2 as stated: a fresh kill file with three
summary lines, parsed against an empty store, with the stats loop
failing on the second event (index 1).  The first event's aggregate
mutations are visible afterwards (the victim's deaths and the killer's
kills are already incremented), and the checkpoint has advanced to
line 2 instead of holding its pre-batch value -1. -/
theorem claim_C2_counterexample :
    ((processKillFileWithFailure
        { name := "kill_a.log", size := 50,
          lines := [KillLine.summary "2024.01.02-03.04.05" "v1" 11 "k1" 10 "AK" none,
                    KillLine.summary "2024.01.02-03.04.06" "v2" 21 "k2" 20 "M9" none,
                    KillLine.summary "2024.01.02-03.04.07" "v3" 31 "k3" 30 "M9" none] }
        1 defaultCheckpoint { players := [], weapons := [], killLogs := [], sentryLogs := [] }
        1).1.players.map (fun p => (p.1, p.2.deaths, p.2.kills))) =
      [((1, 11), 1, 0), ((1, 10), 0, 1)] ∧
    (processKillFileWithFailure
        { name := "kill_a.log", size := 50,
          lines := [KillLine.summary "2024.01.02-03.04.05" "v1" 11 "k1" 10 "AK" none,
                    KillLine.summary "2024.01.02-03.04.06" "v2" 21 "k2" 20 "M9" none,
                    KillLine.summary "2024.01.02-03.04.07" "v3" 31 "k3" 30 "M9" none] }
        1 defaultCheckpoint { players := [], weapons := [], killLogs := [], sentryLogs := [] }
        1).2.lastLine = 2 ∧
    defaultCheckpoint.lastLine = -1 := by
  decide

theorem claim_C2_witness :
    processKillFileWithFailure
        { name := "kill_w.log", size := 10, lines := [KillLine.noise] }
        1 defaultCheckpoint { players := [], weapons := [], killLogs := [], sentryLogs := [] } 0 =
      processKillFile
        { name := "kill_w.log", size := 10, lines := [KillLine.noise] }
        1 defaultCheckpoint { players := [], weapons := [], killLogs := [], sentryLogs := [] } :=
  (claim_C2_amended
    { name := "kill_w.log", size := 10, lines := [KillLine.noise] }
    1 defaultCheckpoint { players := [], weapons := [], killLogs := [], sentryLogs := [] }
    0).2.2 (by decide)

/-! ### Kill-batch structure lemmas shared by C3 and C4 -/

theorem killFold_fst (g : Nat) :
    ∀ (lines : List KillLine) (acc : List KillEvent × List (String × KillBlock)),
    (lines.foldl (killStep g) acc).1 = acc.1 ++ lines.filterMap (suicideOf g)
  | [], acc => by simp
  | l :: r, acc => by
      rw [List.foldl_cons, killFold_fst g r (killStep g acc l)]
      cases l with
      | noise => simp [killStep, suicideOf]
      | suicide dt u pid sid x y z => simp [killStep, suicideOf]
      | jsonDetail dt p => cases p <;> simp [killStep, suicideOf]
      | summary dt vn vs kn ks w d => simp [killStep, suicideOf]

theorem emitBlock_srcTag (g : Nat) (ts : String) (b : KillBlock) (e : KillEvent)
    (h : emitBlock g ts b = some e) : e.srcTag = none := by
  unfold emitBlock at h
  cases hb : b.summary with
  | none => rw [hb] at h; exact absurd h (by simp)
  | some s => rw [hb] at h; injection h with h2; rw [← h2]

theorem parse_kill_lines_mem (lines : List KillLine) (g : Nat) (e : KillEvent)
    (he : e ∈ parse_kill_lines lines g) :
    e ∈ lines.filterMap (suicideOf g) ∨ e.srcTag = none := by
  unfold parse_kill_lines at he
  rw [List.mem_append] at he
  rcases he with he | he
  · rw [killFold_fst g lines ([], [])] at he
    simp only [List.nil_append] at he
    exact Or.inl he
  · right
    rw [List.mem_filterMap] at he
    obtain ⟨p, _, hp⟩ := he
    exact emitBlock_srcTag g p.1 p.2 e hp

theorem suicide_parse_shape (lines : List KillLine) (g : Nat) (e : KillEvent)
    (he : e ∈ parse_kill_lines lines g) (hs : e.srcTag = some "SUICIDE") :
    e.killerSteamId = e.victimSteamId ∧ e.killerUsername = e.victimUsername ∧
      e.weapon = "Suicide" := by
  rcases parse_kill_lines_mem lines g e he with hm | hm
  · rw [List.mem_filterMap] at hm
    obtain ⟨l, _, hl⟩ := hm
    cases l with
    | suicide dt u pid sid x y z =>
        rw [suicideOf] at hl
        injection hl with h2
        rw [← h2]
        exact ⟨rfl, rfl, rfl⟩
    | noise => exact absurd hl (by simp [suicideOf])
    | jsonDetail dt p => exact absurd hl (by simp [suicideOf])
    | summary dt vn vs kn ks w d => exact absurd hl (by simp [suicideOf])
  · rw [hs] at hm
    exact absurd hm (by simp)

theorem suicide_save_shape (db : Db) (g : Nat) (e : KillEvent) (P : PlayerStats)
    (hs : e.srcTag = some "SUICIDE") (hv : e.victimSteamId ≠ 0)
    (hP : alookup db.players (g, e.victimSteamId) = some P) :
    alookup (save_kills_and_update_stats [e] g db).players (g, e.victimSteamId) =
      some { P with username := optName e.victimUsername, deaths := P.deaths + 1, kd := (P.kills : Rat) / ((P.deaths + 1 : Nat) : Rat) } ∧
    (save_kills_and_update_stats [e] g db).weapons = db.weapons ∧
    (∀ q, q ≠ (g, e.victimSteamId) →
      alookup (save_kills_and_update_stats [e] g db).players q = alookup db.players q) := by
  have h1 : save_kills_and_update_stats [e] g db =
      updateKd (incDeaths (playerUpsert (insertKillRows db g [e]) g e.victimSteamId
        (optName e.victimUsername)) g e.victimSteamId) g e.victimSteamId := by
    simp only [save_kills_and_update_stats, List.isEmpty_cons, Bool.false_eq_true, if_false,
      List.foldl_cons, List.foldl_nil, saveKillEventStats, if_pos hv, hs, if_pos]
  rw [h1]
  refine ⟨?_, rfl, ?_⟩
  · simp only [updateKd, incDeaths, playerUpsert, insertKillRows,
      alookup_aupdate_self, alookup_aupsert_self, hP]
    simp [recomputeKd]
  · intro q hq
    simp only [updateKd, incDeaths, playerUpsert, insertKillRows]
    rw [alookup_aupdate_ne _ _ _ _ hq, alookup_aupdate_ne _ _ _ _ hq,
      alookup_aupsert_ne _ _ _ _ _ hq]

/-- Claim C4.  A suicide line emits an event with killer equal to
victim and weapon `"Suicide"`; persisting such an event increments only
that player's deaths and recomputes their kd_ratio (as kills over the
new death count), while their kills, longest_kill, favorite_weapon and
every weapon-aggregate row stay untouched, and no other player row
changes. -/
theorem claim_C4 :
    (∀ (lines : List KillLine) (g : Nat), ∀ e ∈ parse_kill_lines lines g,
      e.srcTag = some "SUICIDE" →
      e.killerSteamId = e.victimSteamId ∧ e.killerUsername = e.victimUsername ∧
        e.weapon = "Suicide") ∧
    (∀ (db : Db) (g : Nat) (e : KillEvent) (P : PlayerStats),
      e.srcTag = some "SUICIDE" → e.victimSteamId ≠ 0 →
      alookup db.players (g, e.victimSteamId) = some P →
      alookup (save_kills_and_update_stats [e] g db).players (g, e.victimSteamId) =
        some { P with username := optName e.victimUsername, deaths := P.deaths + 1, kd := (P.kills : Rat) / ((P.deaths + 1 : Nat) : Rat) } ∧
      (save_kills_and_update_stats [e] g db).weapons = db.weapons ∧
      (∀ q, q ≠ (g, e.victimSteamId) →
        alookup (save_kills_and_update_stats [e] g db).players q = alookup db.players q)) :=
  ⟨fun lines g e he hs => suicide_parse_shape lines g e he hs,
   fun db g e P hs hv hP => suicide_save_shape db g e P hs hv hP⟩

theorem claim_C4_witness :
    ((suicideEvent 1 "2024.01.02-03.04.05" "al" 9 761 none none none).killerSteamId =
      (suicideEvent 1 "2024.01.02-03.04.05" "al" 9 761 none none none).victimSteamId ∧
     (suicideEvent 1 "2024.01.02-03.04.05" "al" 9 761 none none none).killerUsername =
      (suicideEvent 1 "2024.01.02-03.04.05" "al" 9 761 none none none).victimUsername ∧
     (suicideEvent 1 "2024.01.02-03.04.05" "al" 9 761 none none none).weapon = "Suicide") ∧
    (save_kills_and_update_stats [suicideEvent 1 "2024.01.02-03.04.05" "al" 9 761 none none none] 1
        { players := [((1, 761), newPlayer (some "al"))], weapons := [], killLogs := [],
          sentryLogs := [] }).weapons =
      ({ players := [((1, 761), newPlayer (some "al"))], weapons := [], killLogs := [],
         sentryLogs := [] } : Db).weapons :=
  ⟨claim_C4.1 [KillLine.suicide "2024.01.02-03.04.05" "al" 9 761 none none none] 1
      (suicideEvent 1 "2024.01.02-03.04.05" "al" 9 761 none none none) (by decide) (by decide),
   (claim_C4.2
      { players := [((1, 761), newPlayer (some "al"))], weapons := [], killLogs := [],
        sentryLogs := [] }
      1 (suicideEvent 1 "2024.01.02-03.04.05" "al" 9 761 none none none) (newPlayer (some "al"))
      (by decide) (by decide) (by decide)).2.1⟩

/-- Claim C5 (first-kill scenario).  Killer K with prior (kills 0,
deaths 0, longest 0, no weapon rows) and victim V with prior
(kills vk, deaths 1): persisting one non-suicide kill with weapon
"SDASS" at distance 120.5 (= 241/2) yields K.kills = 1,
K.longest_kill = 120.5, K.kd_ratio = 1 (deaths stayed 0, so the CASE
takes the kills branch), K.favorite_weapon = "SDASS"; and V.deaths = 2,
V.kd_ratio = vk / 2. -/
theorem claim_C5 (g kSid vSid vk : Nat) (kName vName : String)
    (hk : kSid ≠ 0) (hv : vSid ≠ 0) (hne : kSid ≠ vSid) :
    alookup (save_kills_and_update_stats
        [{ guildId := g, ts := "2024.01.02-03.04.05", killerSteamId := kSid, killerUsername := "K", killerPlayerId := none, victimSteamId := vSid, victimUsername := "V", victimPlayerId := none, weapon := "SDASS", distance := some (241 / 2 : Rat), killerX := none, killerY := none, killerZ := none, victimX := none, victimY := none, victimZ := none, timeOfDay := none, srcTag := none }] g
        { players := [((g, kSid), newPlayer (some kName)), ((g, vSid), { newPlayer (some vName) with kills := vk, deaths := 1 })], weapons := [], killLogs := [], sentryLogs := [] }).players
      (g, kSid) =
      some { username := some "K", kills := 1, deaths := 0, longestKill := (241 / 2 : Rat), favoriteWeapon := some "SDASS", kd := 1, sentryKills := 0 } ∧
    alookup (save_kills_and_update_stats
        [{ guildId := g, ts := "2024.01.02-03.04.05", killerSteamId := kSid, killerUsername := "K", killerPlayerId := none, victimSteamId := vSid, victimUsername := "V", victimPlayerId := none, weapon := "SDASS", distance := some (241 / 2 : Rat), killerX := none, killerY := none, killerZ := none, victimX := none, victimY := none, victimZ := none, timeOfDay := none, srcTag := none }] g
        { players := [((g, kSid), newPlayer (some kName)), ((g, vSid), { newPlayer (some vName) with kills := vk, deaths := 1 })], weapons := [], killLogs := [], sentryLogs := [] }).players
      (g, vSid) =
      some { username := some "V", kills := vk, deaths := 2, longestKill := 0, favoriteWeapon := none, kd := (vk : Rat) / ((2 : Nat) : Rat), sentryKills := 0 } := by
  have hm : max (0 : Rat) (241 / 2 : Rat) = 241 / 2 := max_eq_right (by norm_num)
  have hkv : ¬ ((g, kSid) = (g, vSid)) := by simp [Prod.ext_iff, hne]
  have hvk : ¬ ((g, vSid) = (g, kSid)) := by simp [Prod.ext_iff, Ne.symm hne]
  constructor
  · simp [save_kills_and_update_stats, saveKillEventStats, insertKillRows, playerUpsert,
      incDeaths, incKills, updateKd, updFav, favWeaponOf, weaponUpsert, weaponBefore,
      recomputeKd, aupsert, aupdate, alookup, hkv, hvk, hv, hk, optName, pyStrip, newPlayer,
      hm, freshWeaponRow]
  · simp [save_kills_and_update_stats, saveKillEventStats, insertKillRows, playerUpsert,
      incDeaths, incKills, updateKd, updFav, favWeaponOf, weaponUpsert, weaponBefore,
      recomputeKd, aupsert, aupdate, alookup, hkv, hvk, hv, hk, optName, pyStrip, newPlayer,
      hm, freshWeaponRow]

theorem claim_C5_witness :
    alookup (save_kills_and_update_stats
        [{ guildId := 1, ts := "2024.01.02-03.04.05", killerSteamId := 10, killerUsername := "K", killerPlayerId := none, victimSteamId := 11, victimUsername := "V", victimPlayerId := none, weapon := "SDASS", distance := some (241 / 2 : Rat), killerX := none, killerY := none, killerZ := none, victimX := none, victimY := none, victimZ := none, timeOfDay := none, srcTag := none }] 1
        { players := [((1, 10), newPlayer (some "ka")), ((1, 11), { newPlayer (some "va") with kills := 3, deaths := 1 })], weapons := [], killLogs := [], sentryLogs := [] }).players
      (1, 10) =
      some { username := some "K", kills := 1, deaths := 0, longestKill := (241 / 2 : Rat), favoriteWeapon := some "SDASS", kd := 1, sentryKills := 0 } ∧
    alookup (save_kills_and_update_stats
        [{ guildId := 1, ts := "2024.01.02-03.04.05", killerSteamId := 10, killerUsername := "K", killerPlayerId := none, victimSteamId := 11, victimUsername := "V", victimPlayerId := none, weapon := "SDASS", distance := some (241 / 2 : Rat), killerX := none, killerY := none, killerZ := none, victimX := none, victimY := none, victimZ := none, timeOfDay := none, srcTag := none }] 1
        { players := [((1, 10), newPlayer (some "ka")), ((1, 11), { newPlayer (some "va") with kills := 3, deaths := 1 })], weapons := [], killLogs := [], sentryLogs := [] }).players
      (1, 11) =
      some { username := some "V", kills := 3, deaths := 2, longestKill := 0, favoriteWeapon := none, kd := ((3 : Nat) : Rat) / ((2 : Nat) : Rat), sentryKills := 0 } :=
  claim_C5 1 10 11 3 "ka" "va" (by decide) (by decide) (by decide)

/-! ### Sentry-aggregate lemmas for C9 -/

theorem alookup_bumpCount : ∀ (cs : List (Nat × Nat)) (t s : Nat),
    alookup (bumpCount cs t) s =
      if t = s then some ((alookup cs s).getD 0 + 1) else alookup cs s
  | [], t, s => by
      by_cases h : t = s <;> simp [bumpCount, alookup, h]
  | p :: r, t, s => by
      by_cases hp : p.1 = t
      · subst hp
        by_cases hs : p.1 = s
        · subst hs
          simp [bumpCount, alookup]
        · simp [bumpCount, alookup, hs]
      · by_cases hs : p.1 = s
        · subst hs
          have hts : ¬ (t = p.1) := fun hc => hp hc.symm
          simp [bumpCount, alookup, hp, hts]
        · simp [bumpCount, alookup, hp, hs, alookup_bumpCount r t s]

theorem keysN_bumpCount : ∀ (cs : List (Nat × Nat)) (t : Nat),
    keysN (bumpCount cs t) = if t ∈ keysN cs then keysN cs else keysN cs ++ [t]
  | [], t => by simp [bumpCount, keysN]
  | p :: r, t => by
      by_cases hp : p.1 = t
      · subst hp
        simp [bumpCount, keysN]
      · have hne : ¬ (t = p.1) := fun hc => hp hc.symm
        have ih := keysN_bumpCount r t
        simp only [keysN] at ih ⊢
        simp only [bumpCount, if_neg hp, List.map_cons]
        rw [ih]
        by_cases ht : t ∈ List.map Prod.fst r
        · simp [keysN, List.mem_cons, hne, ht]
        · simp [keysN, List.mem_cons, hne, ht]

theorem nodup_bumpCount (cs : List (Nat × Nat)) (t : Nat) (h : (keysN cs).Nodup) :
    (keysN (bumpCount cs t)).Nodup := by
  rw [keysN_bumpCount]
  by_cases ht : t ∈ keysN cs
  · simp [ht, h]
  · simp [ht, List.nodup_append, h]

theorem nodup_sentryCounts_aux :
    ∀ (entries : List SentryEntry) (acc : List (Nat × Nat)), (keysN acc).Nodup →
    (keysN (entries.foldl
      (fun cs e => if e.killerSteamId = 0 then cs else bumpCount cs e.killerSteamId) acc)).Nodup
  | [], acc, h => h
  | e :: r, acc, h => by
      rw [List.foldl_cons]
      by_cases he : e.killerSteamId = 0
      · rw [if_pos he]
        exact nodup_sentryCounts_aux r acc h
      · rw [if_neg he]
        exact nodup_sentryCounts_aux r (bumpCount acc e.killerSteamId)
          (nodup_bumpCount acc e.killerSteamId h)

theorem alookup_sentryCounts_aux :
    ∀ (entries : List SentryEntry) (acc : List (Nat × Nat)) (sid : Nat), sid ≠ 0 →
    (alookup (entries.foldl
      (fun cs e => if e.killerSteamId = 0 then cs else bumpCount cs e.killerSteamId) acc)
        sid).getD 0 =
      (alookup acc sid).getD 0 + sentryCountFor entries sid
  | [], acc, sid, _ => by simp [sentryCountFor]
  | e :: r, acc, sid, hs => by
      rw [List.foldl_cons]
      by_cases he : e.killerSteamId = 0
      · rw [if_pos he]
        rw [alookup_sentryCounts_aux r acc sid hs]
        have : ¬ (e.killerSteamId = sid) := by omega
        simp [sentryCountFor, this]
      · rw [if_neg he]
        rw [alookup_sentryCounts_aux r (bumpCount acc e.killerSteamId) sid hs]
        rw [alookup_bumpCount]
        by_cases ht : e.killerSteamId = sid
        · simp [ht, sentryCountFor]
          omega
        · simp [ht, sentryCountFor]

theorem alookup_keysN_none : ∀ (cs : List (Nat × Nat)) (s : Nat), s ∉ keysN cs →
    alookup cs s = none
  | [], _, _ => rfl
  | p :: r, s, h => by
      have h1 : ¬ (p.1 = s) := by
        intro hc
        exact h (by simp [keysN, hc])
      have h2 : s ∉ keysN r := fun hc => h (by simp [keysN] at hc ⊢; exact Or.inr hc)
      simp [alookup, h1, alookup_keysN_none r s h2]

theorem sentryLogs_addSentry_fold (g : Nat) :
    ∀ (cs : List (Nat × Nat)) (db : Db),
    (cs.foldl (addSentryKills g) db).sentryLogs = db.sentryLogs
  | [], _ => rfl
  | p :: r, db => by
      rw [List.foldl_cons]
      exact sentryLogs_addSentry_fold g r (addSentryKills g db p)

theorem alookup_addSentry_fold (g sid : Nat) :
    ∀ (cs : List (Nat × Nat)) (db : Db) (P : PlayerStats),
    (keysN cs).Nodup → alookup db.players (g, sid) = some P →
    alookup (cs.foldl (addSentryKills g) db).players (g, sid) =
      some { P with sentryKills := P.sentryKills + (alookup cs sid).getD 0 }
  | [], db, P, _, hP => by simp [alookup, hP]
  | (k, c) :: r, db, P, hn, hP => by
      rw [List.foldl_cons]
      have hkeys : keysN ((k, c) :: r) = k :: keysN r := rfl
      rw [hkeys, List.nodup_cons] at hn
      have hn2 : (keysN r).Nodup := hn.2
      by_cases hk : k = sid
      · subst hk
        have hnm : k ∉ keysN r := hn.1
        have hP2 : alookup (addSentryKills g db (k, c)).players (g, k) =
            some { P with sentryKills := P.sentryKills + c } := by
          simp [addSentryKills, alookup_aupdate_self, hP]
        rw [alookup_addSentry_fold g k r (addSentryKills g db (k, c))
          { P with sentryKills := P.sentryKills + c } hn2 hP2]
        rw [alookup_keysN_none r k hnm]
        simp [alookup]
      · have hne : (g, sid) ≠ (g, k) := fun hc => hk ((Prod.ext_iff.mp hc).2.symm)
        have hP2 : alookup (addSentryKills g db (k, c)).players (g, sid) = some P := by
          simp only [addSentryKills]
          rw [alookup_aupdate_ne _ _ _ _ hne]
          exact hP
        rw [alookup_addSentry_fold g sid r (addSentryKills g db (k, c)) P hn2 hP2]
        simp [alookup, hk]

/-- Claim C9.  Saving a sentry batch always appends the fact rows; the
attacker's `sentry_kills` counter moves by exactly the number of events
attributed to them if and only if the target's `post_sentries` flag
(read once per pass) was enabled — with the flag disabled the player
table is untouched. -/
theorem claim_C9 (db : Db) (entries : List SentryEntry) (g : Nat) (postSentries : Option Nat)
    (sid : Nat) (P : PlayerStats) (hsid : sid ≠ 0)
    (hP : alookup db.players (g, sid) = some P) :
    alookup (save_sentry_logs_to_mysql db entries g (increment_stats_of postSentries)).players
        (g, sid) =
      some { P with sentryKills := P.sentryKills + (if increment_stats_of postSentries then sentryCountFor entries sid else 0) } ∧
    (increment_stats_of postSentries = false →
      (save_sentry_logs_to_mysql db entries g (increment_stats_of postSentries)).players =
        db.players) ∧
    (save_sentry_logs_to_mysql db entries g (increment_stats_of postSentries)).sentryLogs =
      db.sentryLogs ++ entries.map (sentryRowOf g) := by
  by_cases hemp : entries.isEmpty
  · have he : entries = [] := List.isEmpty_iff.mp hemp
    subst he
    refine ⟨?_, fun _ => ?_, ?_⟩
    · simp [save_sentry_logs_to_mysql, sentryCountFor, hP]
    · simp [save_sentry_logs_to_mysql]
    · simp [save_sentry_logs_to_mysql]
  · cases hflag : increment_stats_of postSentries
    · refine ⟨?_, fun _ => ?_, ?_⟩
      · simp [save_sentry_logs_to_mysql, hemp, hP]
      · simp [save_sentry_logs_to_mysql, hemp]
      · simp [save_sentry_logs_to_mysql, hemp]
    · have hdb1 : alookup
          ({ db with sentryLogs := db.sentryLogs ++ entries.map (sentryRowOf g) } : Db).players
          (g, sid) = some P := hP
      have hnodup : (keysN (sentryCounts entries)).Nodup :=
        nodup_sentryCounts_aux entries [] (by simp [keysN])
      have hfold := alookup_addSentry_fold g sid (sentryCounts entries)
        { db with sentryLogs := db.sentryLogs ++ entries.map (sentryRowOf g) } P hnodup hdb1
      have hcount : (alookup (sentryCounts entries) sid).getD 0 = sentryCountFor entries sid := by
        have := alookup_sentryCounts_aux entries [] sid hsid
        simpa [sentryCounts, alookup] using this
      refine ⟨?_, fun hc => ?_, ?_⟩
      · rw [show save_sentry_logs_to_mysql db entries g true =
            (sentryCounts entries).foldl (addSentryKills g)
              { db with sentryLogs := db.sentryLogs ++ entries.map (sentryRowOf g) } from by
          simp [save_sentry_logs_to_mysql, hemp]]
        rw [hfold, hcount]
        simp
      · exact absurd hc (by simp)
      · rw [show save_sentry_logs_to_mysql db entries g true =
            (sentryCounts entries).foldl (addSentryKills g)
              { db with sentryLogs := db.sentryLogs ++ entries.map (sentryRowOf g) } from by
          simp [save_sentry_logs_to_mysql, hemp]]
        rw [sentryLogs_addSentry_fold]

theorem claim_C9_witness :
    alookup (save_sentry_logs_to_mysql
        { players := [((1, 761), newPlayer none)], weapons := [], killLogs := [], sentryLogs := [] }
        [{ guildId := 1, ts := "2024.01.02-03.04.05", killerSteamId := 761, killerUsername := "al", weapon := "AK", damage := 10, x := 1, y := 2, z := 3, rawLine := "raw" }]
        1 (increment_stats_of (some 1))).players (1, 761) =
      some { newPlayer none with sentryKills := (newPlayer none).sentryKills + (if increment_stats_of (some 1) then sentryCountFor [{ guildId := 1, ts := "2024.01.02-03.04.05", killerSteamId := 761, killerUsername := "al", weapon := "AK", damage := 10, x := 1, y := 2, z := 3, rawLine := "raw" }] 761 else 0) } :=
  (claim_C9
    { players := [((1, 761), newPlayer none)], weapons := [], killLogs := [], sentryLogs := [] }
    [{ guildId := 1, ts := "2024.01.02-03.04.05", killerSteamId := 761, killerUsername := "al", weapon := "AK", damage := 10, x := 1, y := 2, z := 3, rawLine := "raw" }]
    1 (some 1) 761 (newPlayer none) (by decide) (by decide)).1

/-! ### Dedup-by-truncated-time lemmas for C10 -/

theorem chat_second_dedup (name : String) (size : Nat) (ts : Ts) (a b c d e ss2 : String) :
    (parse_log_file
        { name := name, size := size,
          lines := [{ len := 40, groups := some (ts, LogGroups.chatG a b c d e) },
                    { len := 40, groups := some ({ ts with ss := ss2 }, LogGroups.chatG a b c d e) }] }
        1 LogType.chat defaultCheckpoint).1 = [mkLogEntry ts (LogGroups.chatG a b c d e)] ∧
    (parse_log_file
        { name := name, size := size,
          lines := [{ len := 40, groups := some (ts, LogGroups.chatG a b c d e) },
                    { len := 40, groups := some ({ ts with ss := ss2 }, LogGroups.chatG a b c d e) }] }
        1 LogType.chat defaultCheckpoint).2.lastLine = 0 := by
  have hkey : mkLogEntry { ts with ss := ss2 } (LogGroups.chatG a b c d e) =
      mkLogEntry ts (LogGroups.chatG a b c d e) := rfl
  constructor <;>
    simp [parse_log_file, logScan, matchOf, effectiveLastLineLog, resetLog, hkey,
      defaultCheckpoint]

theorem login_second_dedup (name : String) (size : Nat) (ts : Ts)
    (ip sid u pid st x y z ss2 : String) :
    (parse_log_file
        { name := name, size := size,
          lines := [{ len := 40, groups := some (ts, LogGroups.loginG ip sid u pid st x y z) },
                    { len := 40, groups := some ({ ts with ss := ss2 }, LogGroups.loginG ip sid u pid st x y z) }] }
        1 LogType.login defaultCheckpoint).1 =
      [mkLogEntry ts (LogGroups.loginG ip sid u pid st x y z)] ∧
    (parse_log_file
        { name := name, size := size,
          lines := [{ len := 40, groups := some (ts, LogGroups.loginG ip sid u pid st x y z) },
                    { len := 40, groups := some ({ ts with ss := ss2 }, LogGroups.loginG ip sid u pid st x y z) }] }
        1 LogType.login defaultCheckpoint).2.lastLine = 0 := by
  have hkey : mkLogEntry { ts with ss := ss2 } (LogGroups.loginG ip sid u pid st x y z) =
      mkLogEntry ts (LogGroups.loginG ip sid u pid st x y z) := rfl
  constructor <;>
    simp [parse_log_file, logScan, matchOf, effectiveLastLineLog, resetLog, hkey,
      defaultCheckpoint]

/-- Claim C10.  Every chat/login record carries a `time` field built
from the line's hour and minute with the seconds replaced by `"00"`;
the per-pass duplicate signature is built from these truncated fields,
so two otherwise-identical lines differing only in their seconds digits
collapse to a single record within one pass (shown for a chat pass and
a login pass; the second line is skipped and the checkpoint stops at
the first line's index). -/
theorem claim_C10 :
    (∀ (ts : Ts) (g : LogGroups), (mkLogEntry ts g).time = ts.hh ++ ":" ++ ts.mm ++ ":00") ∧
    (∀ (name : String) (size : Nat) (ts : Ts) (a b c d e ss2 : String),
      (parse_log_file
          { name := name, size := size,
            lines := [{ len := 40, groups := some (ts, LogGroups.chatG a b c d e) },
                      { len := 40, groups := some ({ ts with ss := ss2 }, LogGroups.chatG a b c d e) }] }
          1 LogType.chat defaultCheckpoint).1 = [mkLogEntry ts (LogGroups.chatG a b c d e)] ∧
      (parse_log_file
          { name := name, size := size,
            lines := [{ len := 40, groups := some (ts, LogGroups.chatG a b c d e) },
                      { len := 40, groups := some ({ ts with ss := ss2 }, LogGroups.chatG a b c d e) }] }
          1 LogType.chat defaultCheckpoint).2.lastLine = 0) ∧
    (∀ (name : String) (size : Nat) (ts : Ts) (ip sid u pid st x y z ss2 : String),
      (parse_log_file
          { name := name, size := size,
            lines := [{ len := 40, groups := some (ts, LogGroups.loginG ip sid u pid st x y z) },
                      { len := 40, groups := some ({ ts with ss := ss2 }, LogGroups.loginG ip sid u pid st x y z) }] }
          1 LogType.login defaultCheckpoint).1 =
        [mkLogEntry ts (LogGroups.loginG ip sid u pid st x y z)] ∧
      (parse_log_file
          { name := name, size := size,
            lines := [{ len := 40, groups := some (ts, LogGroups.loginG ip sid u pid st x y z) },
                      { len := 40, groups := some ({ ts with ss := ss2 }, LogGroups.loginG ip sid u pid st x y z) }] }
          1 LogType.login defaultCheckpoint).2.lastLine = 0) :=
  ⟨fun _ _ => rfl,
   fun name size ts a b c d e ss2 => chat_second_dedup name size ts a b c d e ss2,
   fun name size ts ip sid u pid st x y z ss2 =>
     login_second_dedup name size ts ip sid u pid st x y z ss2⟩

/-! ### Correlation-buffer lemmas for C3 -/

theorem orElse_none_right {α : Type} (o : Option α) : (o.orElse fun _ => none) = o := by
  cases o <;> rfl

theorem getD_json (o : Option KillBlock) :
    (o.getD { json := none, summary := none }).json = o.bind KillBlock.json := by
  cases o <;> rfl

theorem getD_summary (o : Option KillBlock) :
    (o.getD { json := none, summary := none }).summary = o.bind KillBlock.summary := by
  cases o <;> rfl

theorem touches_false_sum (ts : String) : ∀ (lines : List KillLine),
    touchesAt ts lines = false → lastSumAt ts lines = none
  | [], _ => rfl
  | l :: r, h => by
      rw [touchesAt, List.any_cons] at h
      simp only [Bool.or_eq_false_iff] at h
      have hr : lastSumAt ts r = none := touches_false_sum ts r (by rw [touchesAt]; exact h.2)
      cases l with
      | summary dt vn vs kn ks w d =>
          have : ¬ (dt = ts) := by
            have := h.1
            simp [isSummaryAt] at this
            exact this.1
          simp [lastSumAt, hr, this]
      | noise => simp [lastSumAt, hr]
      | suicide dt u pid sid x y z => simp [lastSumAt, hr]
      | jsonDetail dt p => simp [lastSumAt, hr]

theorem touches_false_json (ts : String) : ∀ (lines : List KillLine),
    touchesAt ts lines = false → lastJsonAt ts lines = none
  | [], _ => rfl
  | l :: r, h => by
      rw [touchesAt, List.any_cons] at h
      simp only [Bool.or_eq_false_iff] at h
      have hr : lastJsonAt ts r = none := touches_false_json ts r (by rw [touchesAt]; exact h.2)
      cases l with
      | jsonDetail dt p =>
          cases p with
          | none => simp [lastJsonAt, hr]
          | some q =>
              have : ¬ (dt = ts) := by
                have := h.1
                simp [isJsonAt] at this
                exact this.2
              simp [lastJsonAt, hr, this]
      | noise => simp [lastJsonAt, hr]
      | suicide dt u pid sid x y z => simp [lastJsonAt, hr]
      | summary dt vn vs kn ks w d => simp [lastJsonAt, hr]

theorem alookup_updateBlock :
    ∀ (m : List (String × KillBlock)) (dt ts : String) (f : KillBlock → KillBlock),
    alookup (updateBlock m dt f) ts =
      if dt = ts then some (f ((alookup m ts).getD { json := none, summary := none }))
      else alookup m ts
  | [], dt, ts, f => by
      by_cases h : dt = ts <;> simp [updateBlock, alookup, h]
  | b :: r, dt, ts, f => by
      by_cases hb : b.1 = dt
      · by_cases hts : dt = ts
        · have hbts : b.1 = ts := hb.trans hts
          simp [updateBlock, alookup, hb, hts, hbts]
        · have hbn : ¬ (b.1 = ts) := fun hc => hts (hb.symm.trans hc)
          simp [updateBlock, alookup, hb, hts, hbn]
      · by_cases hbs : b.1 = ts
        · have hdt : ¬ (dt = ts) := fun hc => hb (hbs.trans hc.symm)
          have hdt2 : ¬ (ts = dt) := fun hc => hdt hc.symm
          simp [updateBlock, alookup, hb, hbs, hdt, hdt2]
        · simp [updateBlock, alookup, hb, hbs, alookup_updateBlock r dt ts f]

theorem some_orElse_my {α : Type} (a : α) (f : Unit → Option α) : (some a).orElse f = some a := rfl

theorem none_orElse_my {α : Type} (f : Unit → Option α) : (none : Option α).orElse f = f () := rfl

theorem killFold_blocks (g : Nat) (ts : String) :
    ∀ (lines : List KillLine) (acc : List KillEvent × List (String × KillBlock)),
    alookup (lines.foldl (killStep g) acc).2 ts = blockRes ts lines (alookup acc.2 ts)
  | [], acc => by simp [blockRes, touchesAt]
  | l :: r, acc => by
      rw [List.foldl_cons, killFold_blocks g ts r (killStep g acc l)]
      cases l with
      | noise =>
          rw [show killStep g acc KillLine.noise = acc from rfl]
          simp [blockRes, touchesAt, lastSumAt, lastJsonAt, isSummaryAt, isJsonAt,
            orElse_none_right]
      | suicide dt u pid sid x y z =>
          rw [show killStep g acc (KillLine.suicide dt u pid sid x y z) =
              (acc.1 ++ [suicideEvent g dt u pid sid x y z], acc.2) from rfl]
          simp [blockRes, touchesAt, lastSumAt, lastJsonAt, isSummaryAt, isJsonAt,
            orElse_none_right]
      | jsonDetail dt p =>
          cases p with
          | none =>
              rw [show killStep g acc (KillLine.jsonDetail dt none) = acc from rfl]
              simp [blockRes, touchesAt, lastSumAt, lastJsonAt, isSummaryAt, isJsonAt,
                orElse_none_right]
          | some q =>
              rw [show (killStep g acc (KillLine.jsonDetail dt (some q))).2 =
                  updateBlock acc.2 dt (fun b => { b with json := some q }) from rfl]
              rw [alookup_updateBlock]
              by_cases hd : dt = ts
              · rw [if_pos hd]
                have h1 : touchesAt ts (KillLine.jsonDetail dt (some q) :: r) = true := by
                  simp [touchesAt, List.any_cons, isJsonAt, hd]
                have hls : lastSumAt ts (KillLine.jsonDetail dt (some q) :: r) =
                    lastSumAt ts r := by
                  simp [lastSumAt, orElse_none_right]
                have hlj : lastJsonAt ts (KillLine.jsonDetail dt (some q) :: r) =
                    (lastJsonAt ts r).orElse (fun _ => some q) := by
                  simp [lastJsonAt, hd]
                by_cases ht : touchesAt ts r = true
                · rw [blockRes, if_pos ht, blockRes, if_pos h1, hls, hlj]
                  cases hb : alookup acc.2 ts <;> cases hx : lastJsonAt ts r <;>
                    simp [some_orElse_my, none_orElse_my]
                · have htf : touchesAt ts r = false := by simpa using ht
                  rw [blockRes, blockRes, if_pos h1, hls, hlj,
                    touches_false_sum ts r htf, touches_false_json ts r htf, htf]
                  cases hb : alookup acc.2 ts <;>
                    simp [some_orElse_my, none_orElse_my]
              · rw [if_neg hd]
                have hts : touchesAt ts (KillLine.jsonDetail dt (some q) :: r) =
                    touchesAt ts r := by
                  simp [touchesAt, List.any_cons, isJsonAt, isSummaryAt, hd]
                have hls : lastSumAt ts (KillLine.jsonDetail dt (some q) :: r) =
                    lastSumAt ts r := by
                  simp [lastSumAt, orElse_none_right]
                have hlj : lastJsonAt ts (KillLine.jsonDetail dt (some q) :: r) =
                    lastJsonAt ts r := by
                  simp [lastJsonAt, hd, orElse_none_right]
                rw [blockRes, blockRes, hts, hls, hlj]
      | summary dt vn vs kn ks w d =>
          rw [show (killStep g acc (KillLine.summary dt vn vs kn ks w d)).2 =
              updateBlock acc.2 dt
                (fun b => { b with summary := some (mkKillSummary dt vn vs kn ks w d) }) from rfl]
          rw [alookup_updateBlock]
          by_cases hd : dt = ts
          · rw [if_pos hd]
            have h1 : touchesAt ts (KillLine.summary dt vn vs kn ks w d :: r) = true := by
              simp [touchesAt, List.any_cons, isSummaryAt, hd]
            have hls : lastSumAt ts (KillLine.summary dt vn vs kn ks w d :: r) =
                (lastSumAt ts r).orElse (fun _ => some (mkKillSummary dt vn vs kn ks w d)) := by
              simp [lastSumAt, hd]
            have hlj : lastJsonAt ts (KillLine.summary dt vn vs kn ks w d :: r) =
                lastJsonAt ts r := by
              simp [lastJsonAt, orElse_none_right]
            by_cases ht : touchesAt ts r = true
            · rw [blockRes, if_pos ht, blockRes, if_pos h1, hls, hlj]
              cases hb : alookup acc.2 ts <;> cases hx : lastSumAt ts r <;>
                simp [some_orElse_my, none_orElse_my]
            · have htf : touchesAt ts r = false := by simpa using ht
              rw [blockRes, blockRes, if_pos h1, hls, hlj,
                touches_false_sum ts r htf, touches_false_json ts r htf, htf]
              cases hb : alookup acc.2 ts <;>
                simp [some_orElse_my, none_orElse_my]
          · rw [if_neg hd]
            have hts : touchesAt ts (KillLine.summary dt vn vs kn ks w d :: r) =
                touchesAt ts r := by
              simp [touchesAt, List.any_cons, isJsonAt, isSummaryAt, hd]
            have hls : lastSumAt ts (KillLine.summary dt vn vs kn ks w d :: r) =
                lastSumAt ts r := by
              simp [lastSumAt, hd, orElse_none_right]
            have hlj : lastJsonAt ts (KillLine.summary dt vn vs kn ks w d :: r) =
                lastJsonAt ts r := by
              simp [lastJsonAt, orElse_none_right]
            rw [blockRes, blockRes, hts, hls, hlj]

theorem keysOf_updateBlock : ∀ (m : List (String × KillBlock)) (ts : String)
    (f : KillBlock → KillBlock),
    keysOf (updateBlock m ts f) = if ts ∈ keysOf m then keysOf m else keysOf m ++ [ts]
  | [], ts, f => by simp [updateBlock, keysOf]
  | b :: r, ts, f => by
      by_cases hb : b.1 = ts
      · simp [updateBlock, keysOf, hb]
      · have hne : ¬ (ts = b.1) := fun hc => hb hc.symm
        have ih := keysOf_updateBlock r ts f
        simp only [keysOf] at ih ⊢
        simp only [updateBlock, if_neg hb, List.map_cons]
        rw [ih]
        by_cases ht : ts ∈ List.map Prod.fst r
        · simp [List.mem_cons, hne, ht]
        · simp [List.mem_cons, hne, ht]

theorem nodup_updateBlock (m : List (String × KillBlock)) (ts : String)
    (f : KillBlock → KillBlock) (h : (keysOf m).Nodup) :
    (keysOf (updateBlock m ts f)).Nodup := by
  rw [keysOf_updateBlock]
  by_cases ht : ts ∈ keysOf m
  · simp [ht, h]
  · simp [ht, List.nodup_append, h]

theorem nodup_killFold (g : Nat) :
    ∀ (lines : List KillLine) (acc : List KillEvent × List (String × KillBlock)),
    (keysOf acc.2).Nodup → (keysOf (lines.foldl (killStep g) acc).2).Nodup
  | [], _, h => h
  | l :: r, acc, h => by
      rw [List.foldl_cons]
      refine nodup_killFold g r (killStep g acc l) ?_
      cases l with
      | noise => exact h
      | suicide dt u pid sid x y z => exact h
      | jsonDetail dt p =>
          cases p with
          | none => exact h
          | some q => exact nodup_updateBlock acc.2 dt _ h
      | summary dt vn vs kn ks w d => exact nodup_updateBlock acc.2 dt _ h

theorem emitBlock_ts (g : Nat) (k : String) (b : KillBlock) (e : KillEvent)
    (h : emitBlock g k b = some e) : e.ts = k := by
  unfold emitBlock at h
  cases hb : b.summary with
  | none => rw [hb] at h; exact absurd h (by simp)
  | some s => rw [hb] at h; injection h with h2; rw [← h2]

theorem filter_emit_nil (g : Nat) (ts : String) : ∀ (m : List (String × KillBlock)),
    ts ∉ keysOf m →
    (m.filterMap (fun p => emitBlock g p.1 p.2)).filter (fun e => decide (e.ts = ts)) = []
  | [], _ => rfl
  | (k, b) :: r, h => by
      have hk : ¬ (k = ts) := by
        intro hc
        exact h (by simp [keysOf, hc])
      have hr : ts ∉ keysOf r := fun hc => h (by simp [keysOf] at hc ⊢; exact Or.inr hc)
      rw [List.filterMap_cons]
      cases he : emitBlock g k b with
      | none => exact filter_emit_nil g ts r hr
      | some e =>
          have := emitBlock_ts g k b e he
          rw [List.filter_cons]
          rw [if_neg (by simp [this, hk])]
          exact filter_emit_nil g ts r hr

theorem filter_emit (g : Nat) (ts : String) : ∀ (m : List (String × KillBlock)),
    (keysOf m).Nodup →
    (m.filterMap (fun p => emitBlock g p.1 p.2)).filter (fun e => decide (e.ts = ts)) =
      ((alookup m ts).bind (emitBlock g ts)).toList
  | [], _ => rfl
  | (k, b) :: r, hn => by
      have hkeys : keysOf ((k, b) :: r) = k :: keysOf r := rfl
      rw [hkeys, List.nodup_cons] at hn
      rw [List.filterMap_cons]
      by_cases hk : k = ts
      · subst hk
        have hnm : k ∉ keysOf r := hn.1
        have hlook : alookup ((k, b) :: r) k = some b := by simp [alookup]
        rw [hlook]
        cases he : emitBlock g k b with
        | none =>
            rw [filter_emit_nil g k r hnm]
            simp [he]
        | some e =>
            have hts := emitBlock_ts g k b e he
            rw [List.filter_cons, if_pos (by simp [hts]), filter_emit_nil g k r hnm]
            simp [he]
      · have hlook : alookup ((k, b) :: r) ts = alookup r ts := by simp [alookup, hk]
        rw [hlook]
        cases he : emitBlock g k b with
        | none => exact filter_emit g ts r hn.2
        | some e =>
            have hts := emitBlock_ts g k b e he
            rw [List.filter_cons, if_neg (by simp [hts, hk])]
            exact filter_emit g ts r hn.2

theorem lastSumAt_nil_of_filter (ts : String) : ∀ (lines : List KillLine),
    lines.filter (isSummaryAt ts) = [] → lastSumAt ts lines = none
  | [], _ => rfl
  | l :: r, h => by
      rw [List.filter_cons] at h
      by_cases hl : isSummaryAt ts l = true
      · rw [if_pos hl] at h
        exact absurd h (by simp)
      · rw [if_neg hl] at h
        have hr := lastSumAt_nil_of_filter ts r h
        cases l with
        | summary dt vn vs kn ks w d =>
            have hdt : ¬ (dt = ts) := by
              intro hc
              exact hl (by simp [isSummaryAt, hc])
            simp [lastSumAt, hr, hdt]
        | noise => simp [lastSumAt, hr]
        | suicide dt u pid sid x y z => simp [lastSumAt, hr]
        | jsonDetail dt p => simp [lastSumAt, hr]

theorem lastJsonAt_nil_of_filter (ts : String) : ∀ (lines : List KillLine),
    lines.filter (isJsonAt ts) = [] → lastJsonAt ts lines = none
  | [], _ => rfl
  | l :: r, h => by
      rw [List.filter_cons] at h
      by_cases hl : isJsonAt ts l = true
      · rw [if_pos hl] at h
        exact absurd h (by simp)
      · rw [if_neg hl] at h
        have hr := lastJsonAt_nil_of_filter ts r h
        cases l with
        | jsonDetail dt p =>
            cases p with
            | none => simp [lastJsonAt, hr]
            | some q =>
                have hdt : ¬ (dt = ts) := by
                  intro hc
                  exact hl (by simp [isJsonAt, hc])
                simp [lastJsonAt, hr, hdt]
        | noise => simp [lastJsonAt, hr]
        | suicide dt u pid sid x y z => simp [lastJsonAt, hr]
        | summary dt vn vs kn ks w d => simp [lastJsonAt, hr]

theorem lastSumAt_of_filter (ts vn : String) (vs : Nat) (kn : String) (ks : Nat)
    (w : String) (d : Option Rat) : ∀ (lines : List KillLine),
    lines.filter (isSummaryAt ts) = [KillLine.summary ts vn vs kn ks w d] →
    lastSumAt ts lines = some (mkKillSummary ts vn vs kn ks w d)
  | [], h => absurd h (by simp)
  | l :: r, h => by
      rw [List.filter_cons] at h
      by_cases hl : isSummaryAt ts l = true
      · rw [if_pos hl] at h
        have hhead : l = KillLine.summary ts vn vs kn ks w d := (List.cons_eq_cons.mp h).1
        have htail : r.filter (isSummaryAt ts) = [] := (List.cons_eq_cons.mp h).2
        subst hhead
        simp [lastSumAt, lastSumAt_nil_of_filter ts r htail]
      · rw [if_neg hl] at h
        have hr := lastSumAt_of_filter ts vn vs kn ks w d r h
        cases l with
        | summary dt vn2 vs2 kn2 ks2 w2 d2 => simp [lastSumAt, hr]
        | noise => simp [lastSumAt, hr]
        | suicide dt u pid sid x y z => simp [lastSumAt, hr]
        | jsonDetail dt p => simp [lastSumAt, hr]

theorem lastJsonAt_of_filter (ts : String) (p : KillPayload) : ∀ (lines : List KillLine),
    lines.filter (isJsonAt ts) = [KillLine.jsonDetail ts (some p)] →
    lastJsonAt ts lines = some p
  | [], h => absurd h (by simp)
  | l :: r, h => by
      rw [List.filter_cons] at h
      by_cases hl : isJsonAt ts l = true
      · rw [if_pos hl] at h
        have hhead : l = KillLine.jsonDetail ts (some p) := (List.cons_eq_cons.mp h).1
        have htail : r.filter (isJsonAt ts) = [] := (List.cons_eq_cons.mp h).2
        subst hhead
        simp [lastJsonAt, lastJsonAt_nil_of_filter ts r htail]
      · rw [if_neg hl] at h
        have hr := lastJsonAt_of_filter ts p r h
        cases l with
        | jsonDetail dt p2 =>
            cases p2 with
            | none => simp [lastJsonAt, hr]
            | some q => simp [lastJsonAt, hr]
        | noise => simp [lastJsonAt, hr]
        | suicide dt u pid sid x y z => simp [lastJsonAt, hr]
        | summary dt vn2 vs2 kn2 ks2 w2 d2 => simp [lastJsonAt, hr]

theorem touchesAt_of_summary_filter (ts vn : String) (vs : Nat) (kn : String) (ks : Nat)
    (w : String) (d : Option Rat) (lines : List KillLine)
    (h : lines.filter (isSummaryAt ts) = [KillLine.summary ts vn vs kn ks w d]) :
    touchesAt ts lines = true := by
  have hmem : KillLine.summary ts vn vs kn ks w d ∈ lines.filter (isSummaryAt ts) := by
    rw [h]
    simp
  rw [List.mem_filter] at hmem
  rw [touchesAt, List.any_eq_true]
  exact ⟨KillLine.summary ts vn vs kn ks w d, hmem.1, by simp [hmem.2]⟩

theorem suicide_filter_nil (g : Nat) (ts : String) : ∀ (lines : List KillLine),
    lines.filter (isSuicideAt ts) = [] →
    (lines.filterMap (suicideOf g)).filter (fun e => decide (e.ts = ts)) = []
  | [], _ => rfl
  | l :: r, h => by
      rw [List.filter_cons] at h
      by_cases hl : isSuicideAt ts l = true
      · rw [if_pos hl] at h
        exact absurd h (by simp)
      · rw [if_neg hl] at h
        have hr := suicide_filter_nil g ts r h
        cases l with
        | suicide dt u pid sid x y z =>
            have hdt : ¬ (dt = ts) := by
              intro hc
              exact hl (by simp [isSuicideAt, hc])
            rw [List.filterMap_cons]
            simp only [suicideOf]
            rw [List.filter_cons]
            rw [if_neg (by simp [suicideEvent, hdt])]
            exact hr
        | noise => simpa [suicideOf] using hr
        | jsonDetail dt p => simpa [suicideOf] using hr
        | summary dt vn vs kn ks w d => simpa [suicideOf] using hr

theorem kill_correlation (lines : List KillLine) (g : Nat) (ts vn : String) (vs : Nat)
    (kn : String) (ks : Nat) (w : String) (d : Option Rat) (p : KillPayload)
    (hS : lines.filter (isSummaryAt ts) = [KillLine.summary ts vn vs kn ks w d])
    (hJ : lines.filter (isJsonAt ts) = [KillLine.jsonDetail ts (some p)])
    (hSui : lines.filter (isSuicideAt ts) = []) :
    (parse_kill_lines lines g).filter (fun e => decide (e.ts = ts)) =
      [{ guildId := g, ts := ts, killerSteamId := ks, killerUsername := pyStrip kn, killerPlayerId := none, victimSteamId := vs, victimUsername := pyStrip vn, victimPlayerId := none, weapon := pyStrip w, distance := d, killerX := p.killerX, killerY := p.killerY, killerZ := p.killerZ, victimX := p.victimX, victimY := p.victimY, victimZ := p.victimZ, timeOfDay := p.timeOfDay.bind (fun t => if t = "" then none else some t), srcTag := none }] := by
  simp only [parse_kill_lines]
  rw [List.filter_append]
  have hA : ((lines.foldl (killStep g) ([], [])).1).filter (fun e => decide (e.ts = ts)) = [] := by
    rw [killFold_fst g lines ([], [])]
    simp only [List.nil_append]
    exact suicide_filter_nil g ts lines hSui
  have hnodup : (keysOf (lines.foldl (killStep g) ([], [])).2).Nodup :=
    nodup_killFold g lines ([], []) (by simp [keysOf])
  rw [hA, filter_emit g ts (lines.foldl (killStep g) ([], [])).2 hnodup,
    killFold_blocks g ts lines ([], [])]
  have hb0 : alookup (([], []) : List KillEvent × List (String × KillBlock)).2 ts = none := rfl
  rw [hb0, blockRes, if_pos (touchesAt_of_summary_filter ts vn vs kn ks w d lines hS),
    lastSumAt_of_filter ts vn vs kn ks w d lines hS, lastJsonAt_of_filter ts p lines hJ]
  simp [some_orElse_my, emitBlock, mkKillSummary]

theorem kill_detail_no_summary (lines : List KillLine) (g : Nat) (ts : String)
    (hS : lines.filter (isSummaryAt ts) = [])
    (hSui : lines.filter (isSuicideAt ts) = []) :
    (parse_kill_lines lines g).filter (fun e => decide (e.ts = ts)) = [] := by
  simp only [parse_kill_lines]
  rw [List.filter_append]
  have hA : ((lines.foldl (killStep g) ([], [])).1).filter (fun e => decide (e.ts = ts)) = [] := by
    rw [killFold_fst g lines ([], [])]
    simp only [List.nil_append]
    exact suicide_filter_nil g ts lines hSui
  have hnodup : (keysOf (lines.foldl (killStep g) ([], [])).2).Nodup :=
    nodup_killFold g lines ([], []) (by simp [keysOf])
  rw [hA, filter_emit g ts (lines.foldl (killStep g) ([], [])).2 hnodup,
    killFold_blocks g ts lines ([], [])]
  have hb0 : alookup (([], []) : List KillEvent × List (String × KillBlock)).2 ts = none := rfl
  rw [hb0]
  by_cases ht : touchesAt ts lines = true
  · rw [blockRes, if_pos ht, lastSumAt_nil_of_filter ts lines hS]
    simp [none_orElse_my, emitBlock]
  · have htf : touchesAt ts lines = false := by simpa using ht
    rw [blockRes, htf]
    simp

/-- Claim C3 (kill correlation).  Within one batch: a timestamp with
exactly one summary line and exactly one loadable JSON detail line (and
no suicide line) yields exactly one kill event, whose
killer/victim/weapon/distance come from the summary line and whose
positions and (truthy) time-of-day come from the payload; a timestamp
with no summary line (detail lines or not) yields no event. -/
theorem claim_C3 :
    (∀ (lines : List KillLine) (g : Nat) (ts vn : String) (vs : Nat) (kn : String) (ks : Nat)
       (w : String) (d : Option Rat) (p : KillPayload),
      lines.filter (isSummaryAt ts) = [KillLine.summary ts vn vs kn ks w d] →
      lines.filter (isJsonAt ts) = [KillLine.jsonDetail ts (some p)] →
      lines.filter (isSuicideAt ts) = [] →
      (parse_kill_lines lines g).filter (fun e => decide (e.ts = ts)) =
        [{ guildId := g, ts := ts, killerSteamId := ks, killerUsername := pyStrip kn, killerPlayerId := none, victimSteamId := vs, victimUsername := pyStrip vn, victimPlayerId := none, weapon := pyStrip w, distance := d, killerX := p.killerX, killerY := p.killerY, killerZ := p.killerZ, victimX := p.victimX, victimY := p.victimY, victimZ := p.victimZ, timeOfDay := p.timeOfDay.bind (fun t => if t = "" then none else some t), srcTag := none }]) ∧
    (∀ (lines : List KillLine) (g : Nat) (ts : String),
      lines.filter (isSummaryAt ts) = [] → lines.filter (isSuicideAt ts) = [] →
      (parse_kill_lines lines g).filter (fun e => decide (e.ts = ts)) = []) :=
  ⟨fun lines g ts vn vs kn ks w d p hS hJ hSui =>
    kill_correlation lines g ts vn vs kn ks w d p hS hJ hSui,
   fun lines g ts hS hSui => kill_detail_no_summary lines g ts hS hSui⟩

theorem claim_C3_witness :
    (parse_kill_lines
        [KillLine.summary "2024.01.02-03.04.05" "vic" 21 "kil" 20 "AK" (some 7),
         KillLine.jsonDetail "2024.01.02-03.04.05"
           (some { killerX := some 1, killerY := some 2, killerZ := some 3, victimX := some 4, victimY := some 5, victimZ := some 6, timeOfDay := some "Night" }),
         KillLine.noise,
         KillLine.jsonDetail "2024.01.02-03.04.09"
           (some { killerX := none, killerY := none, killerZ := none, victimX := none, victimY := none, victimZ := none, timeOfDay := none })]
        5).filter (fun e => decide (e.ts = "2024.01.02-03.04.05")) =
      [{ guildId := 5, ts := "2024.01.02-03.04.05", killerSteamId := 20, killerUsername := pyStrip "kil", killerPlayerId := none, victimSteamId := 21, victimUsername := pyStrip "vic", victimPlayerId := none, weapon := pyStrip "AK", distance := some 7, killerX := some 1, killerY := some 2, killerZ := some 3, victimX := some 4, victimY := some 5, victimZ := some 6, timeOfDay := some "Night", srcTag := none }] ∧
    (parse_kill_lines
        [KillLine.summary "2024.01.02-03.04.05" "vic" 21 "kil" 20 "AK" (some 7),
         KillLine.jsonDetail "2024.01.02-03.04.05"
           (some { killerX := some 1, killerY := some 2, killerZ := some 3, victimX := some 4, victimY := some 5, victimZ := some 6, timeOfDay := some "Night" }),
         KillLine.noise,
         KillLine.jsonDetail "2024.01.02-03.04.09"
           (some { killerX := none, killerY := none, killerZ := none, victimX := none, victimY := none, victimZ := none, timeOfDay := none })]
        5).filter (fun e => decide (e.ts = "2024.01.02-03.04.09")) = [] :=
  ⟨claim_C3.1
    [KillLine.summary "2024.01.02-03.04.05" "vic" 21 "kil" 20 "AK" (some 7),
     KillLine.jsonDetail "2024.01.02-03.04.05"
       (some { killerX := some 1, killerY := some 2, killerZ := some 3, victimX := some 4, victimY := some 5, victimZ := some 6, timeOfDay := some "Night" }),
     KillLine.noise,
     KillLine.jsonDetail "2024.01.02-03.04.09"
       (some { killerX := none, killerY := none, killerZ := none, victimX := none, victimY := none, victimZ := none, timeOfDay := none })]
    5 "2024.01.02-03.04.05" "vic" 21 "kil" 20 "AK" (some 7)
    { killerX := some 1, killerY := some 2, killerZ := some 3, victimX := some 4, victimY := some 5, victimZ := some 6, timeOfDay := some "Night" }
    (by decide) (by decide) (by decide),
   claim_C3.2
    [KillLine.summary "2024.01.02-03.04.05" "vic" 21 "kil" 20 "AK" (some 7),
     KillLine.jsonDetail "2024.01.02-03.04.05"
       (some { killerX := some 1, killerY := some 2, killerZ := some 3, victimX := some 4, victimY := some 5, victimZ := some 6, timeOfDay := some "Night" }),
     KillLine.noise,
     KillLine.jsonDetail "2024.01.02-03.04.09"
       (some { killerX := none, killerY := none, killerZ := none, victimX := none, victimY := none, victimZ := none, timeOfDay := none })]
    5 "2024.01.02-03.04.09" (by decide) (by decide)⟩
